import Mathlib

/-!
# GLnexus `BCFBucketCache.cc`: a read-through cache of decoded BCF buckets

Shallow embedding of `src/BCFBucketCache.cc`.  The three functions of the file
(`BCFBucketCache::Open`, `get_bucket_from_db`, `BCFBucketCache::get_bucket`) and the
deleter `bucket_mem_free` are translated line by line.  Everything the file only
*uses* (the `Status` class, `KeyValue::DB`, `BCFReader`, `bcf_unpack`, `range::str`,
`rocksdb::Cache`) is declared in headers that are not part of the source file; those
collaborators are either parameters (`KeyValue.DB`, `Externals`) or small models whose
doc comment says so.

State is passed explicitly.  `Machine` holds the cache object's body, the free store
(the `BktT` cells created by `new BktT` and the vector objects they point to, both
addressed by identity) and a trace of the collaborator calls made so far (newest first).
-/

namespace GLnexus

/-! ## Collaborators declared outside the source file -/

/-- Modelled from the spec: the status codes of `Status` (declared in a header that is not
in the source file).  The source names `OK`, `NOT_FOUND` and the `IOError` constructor. -/
inductive StatusCode
  | OK | FAILURE | INVALID | NOT_FOUND | EXISTS | IO_ERROR | NOT_IMPLEMENTED
  deriving DecidableEq, Repr

/-- Modelled from the spec: a `Status` value, a code with a message and a noun
(`Status::IOError(msg, noun)` in the source). -/
structure Status where
  code : StatusCode
  msg : String
  noun : String
  deriving DecidableEq, Repr

namespace Status

/-- `Status::OK()`. -/
def OK : Status := ⟨StatusCode.OK, "", ""⟩

/-- `Status::NotFound()`. -/
def NotFound : Status := ⟨StatusCode.NOT_FOUND, "", ""⟩

/-- `Status::IOError(msg, noun)`. -/
def IOError (msg noun : String) : Status := ⟨StatusCode.IO_ERROR, msg, noun⟩

/-- `s.ok()`. -/
def ok (s : Status) : Bool := decide (s.code = StatusCode.OK)

/-- `s.bad()`. -/
def bad (s : Status) : Bool := !s.ok

end Status

/-- A decoded record (`bcf1_t`), opaque to the cache; `id` names the record object. -/
structure bcf1_t where
  id : Nat
  deriving DecidableEq, Repr

/-- `KeyValue::CollectionHandle`. -/
abbrev CollectionHandle := Nat

namespace KeyValue

/-- `KeyValue::DB`, the backing store, as the two methods the source calls.  Each returns
its `Status` together with the value it leaves in its output parameter. -/
structure DB where
  collection : String → Status × CollectionHandle
  get : CollectionHandle → String → Status × String

end KeyValue

/-- A genomic range (`range`), used by the source only through `r.str()`. -/
structure range where
  rid : Int
  beg : Int
  fin : Int
  deriving DecidableEq, Repr

/-- Modelled from the spec: a `BCFReader` over one blob, "a lazy sequence of Record" that
"signals end-of-stream as a distinct, non-error terminal condition; signals malformed input
as an error".  `pending` lists what the coming `read` calls return, a status and the record
left in `vt`; once it is used up `read` reports end-of-stream. -/
structure BCFReader where
  pending : List (Status × bcf1_t)
  deriving DecidableEq, Repr

/-- The record `read` leaves in `vt` when it has nothing to decode. -/
def bcf_init : bcf1_t := ⟨0⟩

/-- `reader->read(vt)`: the status, the record in `vt`, and the advanced reader.
End-of-stream is `NotFound`. -/
def BCFReader.read (rd : BCFReader) : Status × bcf1_t × BCFReader :=
  match rd.pending with
  | [] => (Status.NotFound, bcf_init, rd)
  | (s, vt) :: rest => (s, vt, ⟨rest⟩)

/-- The free functions and static methods the source calls: `BCFReader::Open`,
`bcf_unpack(vt, BCF_UN_ALL)` (its return code) and `range::str`. -/
structure Externals where
  Open : String → Status × BCFReader
  bcf_unpack : bcf1_t → Int
  range_str : range → String

/-! ## The free store -/

/-- Identity of a `vector<shared_ptr<bcf1_t>>` object. -/
abbrev VecId := Nat

/-- Address of a heap cell created by `new BktT`. -/
abbrev CellId := Nat

/-- `BktT`: a shared pointer to a vector of records, possibly null. -/
abbrev BktT := Option VecId

/-- A heap cell holding a `BktT`: live with its content, or freed. -/
inductive Cell
  | live (p : BktT)
  | freed
  deriving DecidableEq, Repr

/-! ## The eviction cache (`rocksdb::Cache`) -/

/-- One resident entry of the cache: key, the `void*` value (a `BktT` cell) and its charge. -/
structure CacheEntry where
  key : String
  value : CellId
  charge : Nat
  deriving DecidableEq, Repr

/-- Modelled from the spec: the `rocksdb::Cache` behind `NewLRUCache` (a library outside the
source file), as section 4.1 describes it: a capacity in records and the resident entries,
least recently used first. -/
structure LRUCache where
  capacity : Nat
  lru : List CacheEntry
  deriving DecidableEq, Repr

/-- `rocksdb::NewLRUCache(capacity)`. -/
def NewLRUCache (capacity : Nat) : LRUCache := ⟨capacity, []⟩

/-- Total charge of a list of entries. -/
def usage (l : List CacheEntry) : Nat := (l.map CacheEntry.charge).sum

/-- Modelled from the spec: "if total weight exceeds capacity, the cache evicts enough
least-recently-used entries ... to make room".  The list is least recently used first;
the result is (entries kept, entries evicted). -/
def evictFromLRU (capacity : Nat) : List CacheEntry → List CacheEntry × List CacheEntry
  | [] => ([], [])
  | e :: rest =>
    if capacity < usage (e :: rest) then
      ((evictFromLRU capacity rest).1, e :: (evictFromLRU capacity rest).2)
    else (e :: rest, [])

namespace LRUCache

/-- Modelled from the spec: `cache->Lookup(key)` followed by `Release`: the entry found, if
any, "no side effects beyond recency bookkeeping" (a hit becomes most recently used). -/
def Lookup (c : LRUCache) (key : String) : Option CacheEntry × LRUCache :=
  match c.lru.find? (fun e => decide (e.key = key)) with
  | none => (none, c)
  | some e => (some e, { c with lru := c.lru.erase e ++ [e] })

/-- Modelled from the spec: `cache->Insert(key, value, charge, deleter)`: an entry already
under `key` is replaced, the new entry becomes most recently used, and least recently used
entries are evicted while the total charge exceeds the capacity.  Returns the cache and the
entries dropped (replaced or evicted), on each of which the deleter runs. -/
def Insert (c : LRUCache) (key : String) (value : CellId) (charge : Nat) :
    LRUCache × List CacheEntry :=
  let replaced := c.lru.filter (fun e => decide (e.key = key))
  let others := c.lru.filter (fun e => !decide (e.key = key))
  let ev := evictFromLRU c.capacity (others ++ [⟨key, value, charge⟩])
  ({ c with lru := ev.1 }, replaced ++ ev.2)

end LRUCache

/-! ## The source file -/

/-- `static int CAPACITY = 100000;` -/
def CAPACITY : Nat := 100000

/-- `struct BCFBucketCache_body`. -/
structure BCFBucketCache_body where
  db : KeyValue.DB
  coll : CollectionHandle
  cache : LRUCache

/-- A call the code makes on a collaborator, or a step on shared data, in program order. -/
inductive Event
  | db_collection (name : String)
  | db_get (coll : CollectionHandle) (key : String)
  | reader_Open (data : String)
  | reader_read
  | bcf_unpack (vt : bcf1_t)
  | push_back (v : VecId) (vt : bcf1_t)
  | cache_Lookup (key : String)
  | cache_Insert (key : String) (value : CellId) (charge : Nat)
  | assign_ans (p : BktT)
  deriving DecidableEq, Repr

/-- `StatsRangeQuery`, of which the source touches one counter.  Its declaration is not in
the source file, so its width is not known; the counter is a natural number here and `+=`
is addition without wrap-around. -/
structure StatsRangeQuery where
  nBCFRecordsReadFromDB : Nat
  deriving DecidableEq, Repr

/-- Program state: the cache object's body, the free store and the trace (newest first). -/
structure Machine where
  body_ : BCFBucketCache_body
  cells : List Cell
  vecs : List (List bcf1_t)
  log : List Event

namespace Machine

/-- Append an event to the trace. -/
def emit (m : Machine) (e : Event) : Machine := { m with log := e :: m.log }

/-- `*bucketPtr` for a cell address: the `BktT` stored there.  Reading a freed or unallocated
cell is undefined in C++; the model yields a null pointer (never taken from a state reachable
from `Open`, see `Inv`). -/
def deref (m : Machine) (c : CellId) : BktT :=
  match m.cells[c]? with
  | some (Cell.live p) => p
  | _ => none

/-- The record sequence of a vector object. -/
def records (m : Machine) (v : VecId) : List bcf1_t := m.vecs.getD v []

/-- `p->size()` for a `BktT`. -/
def size (m : Machine) (p : BktT) : Nat :=
  match p with
  | some v => (m.records v).length
  | none => 0

/-- `ans->push_back(vt)` on the vector `v`. -/
def push_back (m : Machine) (v : VecId) (vt : bcf1_t) : Machine :=
  { m with vecs := m.vecs.set v (m.records v ++ [vt]), log := Event.push_back v vt :: m.log }

end Machine

/-- Modelled from the spec: the macro `S(st)` (from a header outside the source file),
`s = st; if (s.bad()) return s;`.  The early return is written out at each use below. -/
def S_returns (s : Status) : Bool := s.bad

/-- The result of `BCFBucketCache::Open`: its status and the state with `ans` filled in. -/
structure OpenResult where
  status : Status
  m : Machine

/-- `BCFBucketCache::Open(db, ans)`. -/
def BCFBucketCache.Open (db : KeyValue.DB) : OpenResult :=
  -- ans.reset(new BCFBucketCache()); body_->db = db; body_->cache = NewLRUCache(CAPACITY)
  let cache := NewLRUCache CAPACITY
  -- S(ans->body_->db->collection("bcf", ans->body_->coll));
  let sc := db.collection "bcf"
  let m : Machine :=
    { body_ := { db := db, coll := sc.2, cache := cache },
      cells := [], vecs := [], log := [Event.db_collection "bcf"] }
  if S_returns sc.1 then ⟨sc.1, m⟩
  else ⟨Status.OK, m⟩

/-- The `while ((s = reader->read(vt)).ok())` loop of `get_bucket_from_db`, by recursion on
what the reader still has to return (see `read_loop_unfold` for the loop equation in terms
of `BCFReader.read`). -/
def read_loop (ext : Externals) (dataset : String) (r : range) (ans : VecId) :
    List (Status × bcf1_t) → Machine → Status × Machine
  | [], m =>
    -- read reports end-of-stream: the loop ends, return Status::OK()
    (Status.OK, m.emit Event.reader_read)
  | (s, vt) :: rest, m =>
    let m1 := m.emit Event.reader_read
    if s.ok then
      let m2 := m1.emit (Event.bcf_unpack vt)
      if ext.bcf_unpack vt ≠ 0 then
        (Status.IOError "BCFKeyValueData::dataset_bcf bcf_unpack"
          (dataset ++ "@" ++ ext.range_str r), m2)
      else
        -- ans->push_back(vt); vt.reset();
        read_loop ext dataset r ans rest (m2.push_back ans vt)
    else
      -- the loop ends on any status that is not ok; return Status::OK()
      (Status.OK, m1)

/-- `get_bucket_from_db(body_, key, dataset, r, ans)`, with `ans` the (non-null) vector the
caller passes in. -/
def get_bucket_from_db (ext : Externals) (m : Machine) (key dataset : String) (r : range)
    (ans : VecId) : Status × Machine :=
  -- Status s = body_->db->get(body_->coll, key, data);
  let g := m.body_.db.get m.body_.coll key
  let m1 := m.emit (Event.db_get m.body_.coll key)
  if g.1.code = StatusCode.NOT_FOUND then
    (Status.NotFound, m1)
  else
    -- S(BCFReader::Open(data.c_str(), data.size(), reader));
    let o := ext.Open g.2
    let m2 := m1.emit (Event.reader_Open g.2)
    if S_returns o.1 then (o.1, m2)
    else read_loop ext dataset r ans o.2.pending m2

/-- `bucket_mem_free(key, val)`: `bucketPtr->reset(); free(bucketPtr);`. -/
def bucket_mem_free (m : Machine) (e : CacheEntry) : Machine :=
  { m with cells := m.cells.set e.value Cell.freed }

/-- What a `get_bucket` call leaves: the status returned, the state, and the two reference
parameters `accu` and `ans`. -/
structure Outcome where
  status : Status
  m : Machine
  accu : StatsRangeQuery
  ans : BktT

/-- `BCFBucketCache::get_bucket(key, dataset, r, accu, ans)`. -/
def BCFBucketCache.get_bucket (ext : Externals) (m : Machine) (key dataset : String)
    (r : range) (accu : StatsRangeQuery) (ans : BktT) : Outcome :=
  -- rocksdb::Cache::Handle *hndl = body_->cache->Lookup(key);
  let lk := m.body_.cache.Lookup key
  let m0 : Machine :=
    { m with body_ := { m.body_ with cache := lk.2 }, log := Event.cache_Lookup key :: m.log }
  match lk.1 with
  | some hndl =>
    -- BktT bucket = *reinterpret_cast<BktT*>(val); ans = bucket; Release(hndl)
    let bucket := m0.deref hndl.value
    ⟨Status.OK, m0.emit (Event.assign_ans bucket), accu, bucket⟩
  | none =>
    -- BktT* bucketPtr = new BktT; bucketPtr->reset(new vector<shared_ptr<bcf1_t> >);
    let bucketPtr : CellId := m0.cells.length
    let v : VecId := m0.vecs.length
    let m1 : Machine :=
      { m0 with cells := m0.cells ++ [Cell.live (some v)], vecs := m0.vecs ++ [[]] }
    -- Status s = get_bucket_from_db(body_.get(), key, dataset, r, *bucketPtr);
    let ld := get_bucket_from_db ext m1 key dataset r v
    let m2 := ld.2
    -- accu.nBCFRecordsReadFromDB += (*bucketPtr)->size();
    let accu1 : StatsRangeQuery :=
      ⟨accu.nBCFRecordsReadFromDB + m2.size (m2.deref bucketPtr)⟩
    if ld.1.bad then
      ⟨ld.1, m2, accu1, ans⟩
    else
      -- ans = *bucketPtr;
      let ans1 := m2.deref bucketPtr
      let m3 := m2.emit (Event.assign_ans ans1)
      -- body_->cache->Insert(key, bucketPtr, (*bucketPtr)->size(), bucket_mem_free);
      let charge := m3.size (m3.deref bucketPtr)
      let ins := m3.body_.cache.Insert key bucketPtr charge
      let m4 : Machine :=
        { m3 with body_ := { m3.body_ with cache := ins.1 },
                  log := Event.cache_Insert key bucketPtr charge :: m3.log }
      ⟨Status.OK, ins.2.foldl bucket_mem_free m4, accu1, ans1⟩

/-! ## Auxiliary definitions for the statements -/

/-- Events the decoding of a blob into the vector `v` may emit: calls on the reader and on
`bcf_unpack`, and appends to `v` itself. -/
def LoopEvent (v : VecId) : Event → Prop
  | Event.reader_Open _ => True
  | Event.reader_read => True
  | Event.bcf_unpack _ => True
  | Event.push_back w _ => w = v
  | _ => False

/-- A reader result that the loop appends: status ok and `bcf_unpack` returns 0. -/
def Good (ext : Externals) (p : Status × bcf1_t) : Prop :=
  p.1.ok = true ∧ ext.bcf_unpack p.2 = 0

/-- State of a miss after `new BktT` and `reset(new vector)`: one more live cell pointing
to one more, empty, vector. -/
def Machine.alloc_bucket (m : Machine) (key : String) : Machine :=
  { m with cells := m.cells ++ [Cell.live (some m.vecs.length)], vecs := m.vecs ++ [[]],
           log := Event.cache_Lookup key :: m.log }

/-- The load a miss performs: `get_bucket_from_db` on the freshly allocated bucket. -/
def load (ext : Externals) (m : Machine) (key dataset : String) (r : range) :
    Status × Machine :=
  get_bucket_from_db ext (m.alloc_bucket key) key dataset r m.vecs.length

/-- Invariant of the states reachable from `Open`: cache keys and cell addresses are
distinct, every resident entry points to a live cell holding a vector whose size is the
entry's charge, and every resident key has an entry in the backing store. -/
structure Inv (m : Machine) : Prop where
  keys_nodup : (m.body_.cache.lru.map CacheEntry.key).Nodup
  values_nodup : (m.body_.cache.lru.map CacheEntry.value).Nodup
  cells_live : ∀ e ∈ m.body_.cache.lru, ∃ v, m.cells[e.value]? = some (Cell.live (some v)) ∧
    v < m.vecs.length ∧ (m.records v).length = e.charge
  stored : ∀ e ∈ m.body_.cache.lru,
    (m.body_.db.get m.body_.coll e.key).1.code ≠ StatusCode.NOT_FOUND

/-- Zero or more `get_bucket` calls, with any arguments, lead from the first state to the
second. -/
inductive Steps (ext : Externals) : Machine → Machine → Prop
  | refl (m : Machine) : Steps ext m m
  | call {m m1 : Machine} (key dataset : String) (r : range) (accu : StatsRangeQuery)
      (ans : BktT) : Steps ext m m1 →
      Steps ext m (BCFBucketCache.get_bucket ext m1 key dataset r accu ans).m

/-- A state reachable from `Open(db)` by `get_bucket` calls. -/
def Reachable (ext : Externals) (db : KeyValue.DB) (m : Machine) : Prop :=
  Steps ext (BCFBucketCache.Open db).m m

/-! ## A worked example

A store with a few keys and a decoder for their blobs, used to instantiate the theorems
and to run the code on concrete requests. -/

/-- Example store: collection "bcf" has handle 7; keys "good", "unpack", "corrupt" and
"noopen" hold blobs, reading key "ioerr" fails with an I/O error, every other key is
absent. -/
def demo_db : KeyValue.DB where
  collection := fun name => if name = "bcf" then (Status.OK, 7) else (Status.NotFound, 0)
  get := fun coll key =>
    if coll ≠ 7 then (Status.NotFound, "")
    else if key = "good" then (Status.OK, "blob-good")
    else if key = "unpack" then (Status.OK, "blob-unpack")
    else if key = "corrupt" then (Status.OK, "blob-corrupt")
    else if key = "noopen" then (Status.OK, "blob-noopen")
    else if key = "ioerr" then (Status.IOError "read failed" "disk", "")
    else (Status.NotFound, "")

/-- Example decoder: "blob-good" holds records 1 and 2; "blob-unpack" holds record 3, then
record 9 on which `bcf_unpack` fails, then record 4; "blob-corrupt" holds records 5 and 6 and
then the reader reports an error; no reader opens on "blob-noopen"; any other blob is
empty. -/
def demo_ext : Externals where
  Open := fun data =>
    if data = "blob-good" then (Status.OK, ⟨[(Status.OK, ⟨1⟩), (Status.OK, ⟨2⟩)]⟩)
    else if data = "blob-unpack" then
      (Status.OK, ⟨[(Status.OK, ⟨3⟩), (Status.OK, ⟨9⟩), (Status.OK, ⟨4⟩)]⟩)
    else if data = "blob-corrupt" then
      (Status.OK, ⟨[(Status.OK, ⟨5⟩), (Status.OK, ⟨6⟩),
        (Status.IOError "corrupt record" "blob-corrupt", bcf_init)]⟩)
    else if data = "blob-noopen" then (⟨StatusCode.INVALID, "not a BCF blob", ""⟩, ⟨[]⟩)
    else (Status.OK, ⟨[]⟩)
  bcf_unpack := fun vt => if vt.id = 9 then -1 else 0
  range_str := fun r => if r.rid = 0 then "chr1" else "chrN"

/-- Example range. -/
def demo_range : range := ⟨0, 100, 200⟩

/-- The state right after `Open` on the example store. -/
def demo_m0 : Machine := (BCFBucketCache.Open demo_db).m

/-- The state after one successful request for key "good" on the example store. -/
def demo_m1 : Machine :=
  (BCFBucketCache.get_bucket demo_ext demo_m0 "good" "ds" demo_range ⟨0⟩ none).m

/-- The example state after a request for "good" and then a failing request for "unpack". -/
def demo_m2 : Machine :=
  (BCFBucketCache.get_bucket demo_ext demo_m1 "unpack" "ds" demo_range ⟨2⟩ none).m

/-! ## Lemmas -/

/-- The loop equation of `read_loop` in terms of `BCFReader.read`. -/
theorem read_loop_unfold (ext : Externals) (dataset : String) (r : range) (ans : VecId)
    (rd : BCFReader) (m : Machine) :
    read_loop ext dataset r ans rd.pending m =
      (if rd.read.1.ok then
        (if ext.bcf_unpack rd.read.2.1 ≠ 0 then
          (Status.IOError "BCFKeyValueData::dataset_bcf bcf_unpack"
            (dataset ++ "@" ++ ext.range_str r),
            (m.emit Event.reader_read).emit (Event.bcf_unpack rd.read.2.1))
        else
          read_loop ext dataset r ans rd.read.2.2.pending
            (((m.emit Event.reader_read).emit (Event.bcf_unpack rd.read.2.1)).push_back ans
              rd.read.2.1))
      else (Status.OK, m.emit Event.reader_read)) := by
  obtain ⟨p⟩ := rd
  cases p with
  | nil => simp [read_loop, BCFReader.read, Status.ok, Status.NotFound]
  | cons a rest =>
    obtain ⟨s, vt⟩ := a
    simp only [read_loop, BCFReader.read]

@[simp] theorem emit_body (m : Machine) (e : Event) : (m.emit e).body_ = m.body_ := rfl

@[simp] theorem emit_cells (m : Machine) (e : Event) : (m.emit e).cells = m.cells := rfl

@[simp] theorem emit_vecs (m : Machine) (e : Event) : (m.emit e).vecs = m.vecs := rfl

@[simp] theorem emit_log (m : Machine) (e : Event) : (m.emit e).log = e :: m.log := rfl

@[simp] theorem push_back_body (m : Machine) (v : VecId) (vt : bcf1_t) :
    (m.push_back v vt).body_ = m.body_ := rfl

@[simp] theorem push_back_cells (m : Machine) (v : VecId) (vt : bcf1_t) :
    (m.push_back v vt).cells = m.cells := rfl

@[simp] theorem push_back_log (m : Machine) (v : VecId) (vt : bcf1_t) :
    (m.push_back v vt).log = Event.push_back v vt :: m.log := rfl

@[simp] theorem push_back_vecs (m : Machine) (v : VecId) (vt : bcf1_t) :
    (m.push_back v vt).vecs = m.vecs.set v (m.records v ++ [vt]) := rfl

theorem read_loop_body (ext : Externals) (dataset : String) (r : range) (ans : VecId)
    (p : List (Status × bcf1_t)) (m : Machine) :
    (read_loop ext dataset r ans p m).2.body_ = m.body_ := by
  induction p generalizing m with
  | nil => simp [read_loop]
  | cons a rest ih =>
    obtain ⟨s, vt⟩ := a
    simp only [read_loop]
    split_ifs <;> simp [ih]

theorem read_loop_cells (ext : Externals) (dataset : String) (r : range) (ans : VecId)
    (p : List (Status × bcf1_t)) (m : Machine) :
    (read_loop ext dataset r ans p m).2.cells = m.cells := by
  induction p generalizing m with
  | nil => simp [read_loop]
  | cons a rest ih =>
    obtain ⟨s, vt⟩ := a
    simp only [read_loop]
    split_ifs <;> simp [ih]

theorem read_loop_vecs_length (ext : Externals) (dataset : String) (r : range) (ans : VecId)
    (p : List (Status × bcf1_t)) (m : Machine) :
    (read_loop ext dataset r ans p m).2.vecs.length = m.vecs.length := by
  induction p generalizing m with
  | nil => simp [read_loop]
  | cons a rest ih =>
    obtain ⟨s, vt⟩ := a
    simp only [read_loop]
    split_ifs <;> simp [ih]

theorem read_loop_vecs_other (ext : Externals) (dataset : String) (r : range) (ans : VecId)
    (p : List (Status × bcf1_t)) (m : Machine) (i : Nat) (hi : i ≠ ans) :
    (read_loop ext dataset r ans p m).2.vecs[i]? = m.vecs[i]? := by
  induction p generalizing m with
  | nil => simp [read_loop]
  | cons a rest ih =>
    obtain ⟨s, vt⟩ := a
    simp only [read_loop]
    split_ifs
    · simp
    · rw [ih]; simp [List.getElem?_set, Ne.symm hi]
    · simp

theorem read_loop_log (ext : Externals) (dataset : String) (r : range) (ans : VecId)
    (p : List (Status × bcf1_t)) (m : Machine) :
    ∃ pre, (read_loop ext dataset r ans p m).2.log = pre ++ m.log ∧
      ∀ e ∈ pre, LoopEvent ans e := by
  induction p generalizing m with
  | nil => exact ⟨[Event.reader_read], by simp [read_loop], by simp [LoopEvent]⟩
  | cons a rest ih =>
    obtain ⟨s, vt⟩ := a
    simp only [read_loop]
    split_ifs
    · exact ⟨[Event.bcf_unpack vt, Event.reader_read], by simp, by simp [LoopEvent]⟩
    · obtain ⟨pre, h1, h2⟩ := ih (((m.emit Event.reader_read).emit (Event.bcf_unpack vt)).push_back ans vt)
      refine ⟨pre ++ [Event.push_back ans vt, Event.bcf_unpack vt, Event.reader_read], ?_, ?_⟩
      · rw [h1]; simp
      · intro e he
        rcases List.mem_append.1 he with h | h
        · exact h2 e h
        · simp at h
          rcases h with rfl | rfl | rfl <;> simp [LoopEvent]
    · exact ⟨[Event.reader_read], by simp, by simp [LoopEvent]⟩

theorem records_push_back_self (m : Machine) (v : VecId) (vt : bcf1_t)
    (hv : v < m.vecs.length) : (m.push_back v vt).records v = m.records v ++ [vt] := by
  simp [Machine.records, List.getD, hv]

theorem read_loop_good_status (ext : Externals) (dataset : String) (r : range) (ans : VecId)
    (good tail : List (Status × bcf1_t)) (m : Machine) (hg : ∀ p ∈ good, Good ext p) :
    ∃ m1, read_loop ext dataset r ans (good ++ tail) m = read_loop ext dataset r ans tail m1 ∧
      (ans < m.vecs.length → m1.records ans = m.records ans ++ good.map Prod.snd) ∧
      m1.vecs.length = m.vecs.length := by
  induction good generalizing m with
  | nil => exact ⟨m, rfl, by simp, rfl⟩
  | cons a rest ih =>
    obtain ⟨s, vt⟩ := a
    have ha : Good ext (s, vt) := hg _ (List.mem_cons_self _ _)
    have hrest : ∀ p ∈ rest, Good ext p := fun p hp => hg p (List.mem_cons_of_mem _ hp)
    obtain ⟨m1, h1, h2, h3⟩ :=
      ih (((m.emit Event.reader_read).emit (Event.bcf_unpack vt)).push_back ans vt) hrest
    refine ⟨m1, ?_, ?_, ?_⟩
    · simp only [List.cons_append, read_loop]
      rw [if_pos ha.1, if_neg (by simpa using ha.2)]
      exact h1
    · intro hv
      rw [h2 (by simpa using hv)]
      rw [records_push_back_self _ _ _ (by simpa using hv)]
      simp [Machine.records]
    · simpa using h3

theorem Lookup_none_iff (c : LRUCache) (k : String) :
    (c.Lookup k).1 = none ↔ ∀ e ∈ c.lru, e.key ≠ k := by
  unfold LRUCache.Lookup
  cases h : c.lru.find? (fun e => decide (e.key = k)) with
  | none => simpa using h
  | some e =>
    have h1 := List.find?_some h
    have h2 := List.mem_of_find?_eq_some h
    constructor
    · intro hh; simp at hh
    · intro hh; exact absurd (by simpa using h1) (hh e h2)

theorem Lookup_none_cache (c : LRUCache) (k : String) (h : (c.Lookup k).1 = none) :
    (c.Lookup k).2 = c := by
  unfold LRUCache.Lookup at h ⊢
  cases h' : c.lru.find? (fun e => decide (e.key = k)) with
  | none => rfl
  | some e => rw [h'] at h; simp at h

theorem Lookup_some (c : LRUCache) (k : String) (e : CacheEntry)
    (h : (c.Lookup k).1 = some e) :
    e ∈ c.lru ∧ e.key = k ∧ (c.Lookup k).2 = { c with lru := c.lru.erase e ++ [e] } := by
  unfold LRUCache.Lookup at h ⊢
  cases h' : c.lru.find? (fun e => decide (e.key = k)) with
  | none => rw [h'] at h; simp at h
  | some e' =>
    rw [h'] at h
    simp only [Option.some.injEq] at h
    subst h
    exact ⟨List.mem_of_find?_eq_some h', by simpa using List.find?_some h', rfl⟩

theorem Lookup_perm (c : LRUCache) (k : String) :
    (c.Lookup k).2.lru.Perm c.lru ∧ (c.Lookup k).2.capacity = c.capacity := by
  cases h : (c.Lookup k).1 with
  | none => rw [Lookup_none_cache c k h]; exact ⟨List.Perm.refl _, rfl⟩
  | some e =>
    obtain ⟨h1, _, h3⟩ := Lookup_some c k e h
    rw [h3]
    refine ⟨?_, rfl⟩
    exact (List.perm_append_comm.trans (List.perm_cons_erase h1).symm)

theorem hit_path_eq (ext : Externals) (m : Machine) (key dataset : String) (r : range)
    (accu : StatsRangeQuery) (ans : BktT) (hndl : CacheEntry)
    (h : (m.body_.cache.Lookup key).1 = some hndl) :
    BCFBucketCache.get_bucket ext m key dataset r accu ans =
      ⟨Status.OK,
       { m with body_ := { m.body_ with cache := (m.body_.cache.Lookup key).2 },
                log := Event.assign_ans (m.deref hndl.value) :: Event.cache_Lookup key :: m.log },
       accu, m.deref hndl.value⟩ := by
  simp only [BCFBucketCache.get_bucket, h]
  rfl

theorem from_db_body (ext : Externals) (m : Machine) (key dataset : String) (r : range)
    (v : VecId) : (get_bucket_from_db ext m key dataset r v).2.body_ = m.body_ := by
  unfold get_bucket_from_db
  simp only
  split_ifs <;> simp [read_loop_body]

theorem from_db_cells (ext : Externals) (m : Machine) (key dataset : String) (r : range)
    (v : VecId) : (get_bucket_from_db ext m key dataset r v).2.cells = m.cells := by
  unfold get_bucket_from_db
  simp only
  split_ifs <;> simp [read_loop_cells]

theorem from_db_vecs_length (ext : Externals) (m : Machine) (key dataset : String) (r : range)
    (v : VecId) : (get_bucket_from_db ext m key dataset r v).2.vecs.length = m.vecs.length := by
  unfold get_bucket_from_db
  simp only
  split_ifs <;> simp [read_loop_vecs_length]

theorem from_db_vecs_other (ext : Externals) (m : Machine) (key dataset : String) (r : range)
    (v : VecId) (i : Nat) (hi : i ≠ v) :
    (get_bucket_from_db ext m key dataset r v).2.vecs[i]? = m.vecs[i]? := by
  unfold get_bucket_from_db
  simp only
  split_ifs <;> simp [read_loop_vecs_other _ _ _ _ _ _ _ hi]

theorem load_body (ext : Externals) (m : Machine) (key dataset : String) (r : range) :
    (load ext m key dataset r).2.body_ = m.body_ := by
  unfold load; rw [from_db_body]; rfl

theorem load_cells (ext : Externals) (m : Machine) (key dataset : String) (r : range) :
    (load ext m key dataset r).2.cells = m.cells ++ [Cell.live (some m.vecs.length)] := by
  unfold load; rw [from_db_cells]; rfl

theorem load_vecs_length (ext : Externals) (m : Machine) (key dataset : String) (r : range) :
    (load ext m key dataset r).2.vecs.length = m.vecs.length + 1 := by
  unfold load; rw [from_db_vecs_length]; simp [Machine.alloc_bucket]

theorem load_vecs_old (ext : Externals) (m : Machine) (key dataset : String) (r : range)
    (i : Nat) (hi : i < m.vecs.length) :
    (load ext m key dataset r).2.vecs[i]? = m.vecs[i]? := by
  unfold load
  rw [from_db_vecs_other _ _ _ _ _ _ _ (Nat.ne_of_lt hi)]
  simp [Machine.alloc_bucket, List.getElem?_append_left hi]

theorem load_deref (ext : Externals) (m : Machine) (key dataset : String) (r : range) :
    (load ext m key dataset r).2.deref m.cells.length = some m.vecs.length := by
  simp [Machine.deref, load_cells]

/-- The miss path of `get_bucket`, with the allocation and the load named. -/
theorem miss_path_eq (ext : Externals) (m : Machine) (key dataset : String) (r : range)
    (accu : StatsRangeQuery) (ans : BktT) (h : (m.body_.cache.Lookup key).1 = none) :
    BCFBucketCache.get_bucket ext m key dataset r accu ans =
      (if (load ext m key dataset r).1.bad then
        ⟨(load ext m key dataset r).1, (load ext m key dataset r).2,
          ⟨accu.nBCFRecordsReadFromDB +
            ((load ext m key dataset r).2.records m.vecs.length).length⟩, ans⟩
      else
        ⟨Status.OK,
          (m.body_.cache.Insert key m.cells.length
            ((load ext m key dataset r).2.records m.vecs.length).length).2.foldl bucket_mem_free
            { (load ext m key dataset r).2 with
              body_ := { m.body_ with cache := (m.body_.cache.Insert key m.cells.length
                ((load ext m key dataset r).2.records m.vecs.length).length).1 },
              log := Event.cache_Insert key m.cells.length
                  ((load ext m key dataset r).2.records m.vecs.length).length ::
                Event.assign_ans (some m.vecs.length) :: (load ext m key dataset r).2.log },
          ⟨accu.nBCFRecordsReadFromDB +
            ((load ext m key dataset r).2.records m.vecs.length).length⟩,
          some m.vecs.length⟩) := by
  have hc := Lookup_none_cache _ _ h
  have hd := load_deref ext m key dataset r
  have hb := load_body ext m key dataset r
  unfold load Machine.alloc_bucket at hd hb
  unfold load Machine.alloc_bucket
  simp only [BCFBucketCache.get_bucket, h, hc, hd, Machine.size, Machine.emit, hb]
  split_ifs
  · simp [hd, hb, Machine.deref, from_db_cells, Machine.size]
  · simp [hd, hb, Machine.deref, from_db_cells, Machine.size]
    rfl

theorem evict_split (cap : Nat) (l : List CacheEntry) :
    (evictFromLRU cap l).2 ++ (evictFromLRU cap l).1 = l := by
  induction l with
  | nil => simp [evictFromLRU]
  | cons e rest ih =>
    simp only [evictFromLRU]
    split_ifs
    · simpa using ih
    · simp

theorem evict_usage (cap : Nat) (l : List CacheEntry) :
    usage (evictFromLRU cap l).1 ≤ cap := by
  induction l with
  | nil => simp [evictFromLRU, usage]
  | cons e rest ih =>
    simp only [evictFromLRU]
    split_ifs with h
    · exact ih
    · exact Nat.le_of_not_lt h

theorem evict_keeps_last (cap : Nat) (l : List CacheEntry) (e : CacheEntry)
    (h : e.charge ≤ cap) : e ∈ (evictFromLRU cap (l ++ [e])).1 := by
  induction l with
  | nil =>
    have : ¬ cap < usage [e] := by simp [usage]; exact h
    simp [evictFromLRU, this]
  | cons a rest ih =>
    simp only [List.cons_append, evictFromLRU]
    split_ifs
    · exact ih
    · simp

theorem Insert_fresh (c : LRUCache) (k : String) (v : CellId) (n : Nat)
    (h : ∀ e ∈ c.lru, e.key ≠ k) :
    c.Insert k v n =
      ({ c with lru := (evictFromLRU c.capacity (c.lru ++ [⟨k, v, n⟩])).1 },
        (evictFromLRU c.capacity (c.lru ++ [⟨k, v, n⟩])).2) := by
  have h1 : c.lru.filter (fun e => decide (e.key = k)) = [] := by
    rw [List.filter_eq_nil_iff]; intro e he; simpa using h e he
  have h2 : c.lru.filter (fun e => !decide (e.key = k)) = c.lru := by
    rw [List.filter_eq_self]; intro e he; simpa using h e he
  simp [LRUCache.Insert, h1, h2]

theorem foldl_free_body (l : List CacheEntry) (m : Machine) :
    (l.foldl bucket_mem_free m).body_ = m.body_ := by
  induction l generalizing m with
  | nil => rfl
  | cons e rest ih => simp [List.foldl, ih, bucket_mem_free]

theorem foldl_free_vecs (l : List CacheEntry) (m : Machine) :
    (l.foldl bucket_mem_free m).vecs = m.vecs := by
  induction l generalizing m with
  | nil => rfl
  | cons e rest ih => simp [List.foldl, ih, bucket_mem_free]

theorem foldl_free_log (l : List CacheEntry) (m : Machine) :
    (l.foldl bucket_mem_free m).log = m.log := by
  induction l generalizing m with
  | nil => rfl
  | cons e rest ih => simp [List.foldl, ih, bucket_mem_free]

theorem foldl_free_cells_length (l : List CacheEntry) (m : Machine) :
    (l.foldl bucket_mem_free m).cells.length = m.cells.length := by
  induction l generalizing m with
  | nil => rfl
  | cons e rest ih => simp [List.foldl, ih, bucket_mem_free]

theorem foldl_free_cells_other (l : List CacheEntry) (m : Machine) (c : CellId)
    (h : c ∉ l.map CacheEntry.value) :
    (l.foldl bucket_mem_free m).cells[c]? = m.cells[c]? := by
  induction l generalizing m with
  | nil => rfl
  | cons e rest ih =>
    simp only [List.map_cons, List.mem_cons, not_or] at h
    simp only [List.foldl]
    rw [ih _ h.2]
    simp [bucket_mem_free, List.getElem?_set, Ne.symm h.1]

theorem foldl_free_cells_mono (l : List CacheEntry) (m : Machine) (c : CellId) :
    (l.foldl bucket_mem_free m).cells[c]? = m.cells[c]? ∨
      (l.foldl bucket_mem_free m).cells[c]? = some Cell.freed := by
  induction l generalizing m with
  | nil => exact Or.inl rfl
  | cons e rest ih =>
    simp only [List.foldl]
    rcases ih (bucket_mem_free m e) with h | h
    · rw [h]
      by_cases hc : e.value = c
      · by_cases hl : c < m.cells.length
        · right; simp [bucket_mem_free, List.getElem?_set, hc, hl]
        · left; simp [bucket_mem_free, List.getElem?_set, hc, hl]
          exact Nat.le_of_not_lt hl
      · left; simp [bucket_mem_free, List.getElem?_set, hc]
    · exact Or.inr h

theorem load_not_found (ext : Externals) (m : Machine) (key dataset : String) (r : range)
    (h : (m.body_.db.get m.body_.coll key).1.code = StatusCode.NOT_FOUND) :
    load ext m key dataset r =
      (Status.NotFound, (m.alloc_bucket key).emit (Event.db_get m.body_.coll key)) := by
  unfold load get_bucket_from_db
  simp only [Machine.alloc_bucket] at h ⊢
  rw [if_pos h]

theorem load_records_old (ext : Externals) (m : Machine) (key dataset : String) (r : range)
    (i : Nat) (hi : i < m.vecs.length) :
    (load ext m key dataset r).2.records i = m.records i := by
  have h := load_vecs_old ext m key dataset r i hi
  simp only [Machine.records, List.getD_eq_getElem?_getD, h]

theorem foldl_free_records (l : List CacheEntry) (m : Machine) (v : VecId) :
    (l.foldl bucket_mem_free m).records v = m.records v := by
  simp only [Machine.records, foldl_free_vecs]

theorem Inv_open (db : KeyValue.DB) : Inv (BCFBucketCache.Open db).m := by
  have h : (BCFBucketCache.Open db).m.body_.cache.lru = [] := by
    unfold BCFBucketCache.Open; simp only; split_ifs <;> rfl
  constructor <;> simp [h]

theorem Inv_get_bucket (ext : Externals) (m : Machine) (key dataset : String) (r : range)
    (accu : StatsRangeQuery) (ans : BktT) (hI : Inv m) :
    Inv (BCFBucketCache.get_bucket ext m key dataset r accu ans).m := by
  cases hlk : (m.body_.cache.Lookup key).1 with
  | some hndl =>
    rw [hit_path_eq ext m key dataset r accu ans hndl hlk]
    have hp := (Lookup_perm m.body_.cache key).1
    constructor
    · exact ((hp.map _).nodup_iff).2 hI.keys_nodup
    · exact ((hp.map _).nodup_iff).2 hI.values_nodup
    · intro e he
      exact hI.cells_live e (hp.mem_iff.1 he)
    · intro e he
      exact hI.stored e (hp.mem_iff.1 he)
  | none =>
    have hno := (Lookup_none_iff _ _).1 hlk
    rw [miss_path_eq ext m key dataset r accu ans hlk]
    split_ifs with hbad
    · -- failed load: the cache is untouched
      have hb := load_body ext m key dataset r
      constructor
      · show ((load ext m key dataset r).2.body_.cache.lru.map CacheEntry.key).Nodup
        rw [hb]; exact hI.keys_nodup
      · show ((load ext m key dataset r).2.body_.cache.lru.map CacheEntry.value).Nodup
        rw [hb]; exact hI.values_nodup
      · intro e he
        have he' : e ∈ m.body_.cache.lru := by
          have : e ∈ (load ext m key dataset r).2.body_.cache.lru := he
          rwa [hb] at this
        obtain ⟨v, h1, h2, h3⟩ := hI.cells_live e he'
        have hlt : e.value < m.cells.length := by
          by_contra hc
          rw [List.getElem?_eq_none (Nat.le_of_not_lt hc)] at h1
          exact Option.noConfusion h1
        refine ⟨v, ?_, ?_, ?_⟩
        · show (load ext m key dataset r).2.cells[e.value]? = _
          rw [load_cells, List.getElem?_append_left hlt]; exact h1
        · show v < (load ext m key dataset r).2.vecs.length
          rw [load_vecs_length]; exact Nat.lt_succ_of_lt h2
        · show ((load ext m key dataset r).2.records v).length = _
          rw [load_records_old _ _ _ _ _ _ h2]; exact h3
      · intro e he
        have he' : e ∈ m.body_.cache.lru := by
          have : e ∈ (load ext m key dataset r).2.body_.cache.lru := he
          rwa [hb] at this
        show ((load ext m key dataset r).2.body_.db.get (load ext m key dataset r).2.body_.coll
          e.key).1.code ≠ _
        rw [hb]; exact hI.stored e he'
    · -- successful load: the new entry is inserted, least recently used entries go
      generalize hn : ((load ext m key dataset r).2.records m.vecs.length).length = n
      have hfresh := Insert_fresh m.body_.cache key m.cells.length n hno
      have hsplit := evict_split m.body_.cache.capacity
        (m.body_.cache.lru ++ [CacheEntry.mk key m.cells.length n])
      generalize hkept : (evictFromLRU m.body_.cache.capacity
        (m.body_.cache.lru ++ [CacheEntry.mk key m.cells.length n])).1 = kept at hfresh hsplit
      generalize hdrop : (evictFromLRU m.body_.cache.capacity
        (m.body_.cache.lru ++ [CacheEntry.mk key m.cells.length n])).2 = dropped at hfresh hsplit
      have hvals_lt : ∀ e ∈ m.body_.cache.lru, e.value < m.cells.length := by
        intro e he
        obtain ⟨v, h1, _, _⟩ := hI.cells_live e he
        by_contra hc
        rw [List.getElem?_eq_none (Nat.le_of_not_lt hc)] at h1
        exact Option.noConfusion h1
      have hsub : kept.Sublist (m.body_.cache.lru ++ [CacheEntry.mk key m.cells.length n]) := by
        rw [← hsplit]; exact List.sublist_append_right _ _
      have hkeys : ((m.body_.cache.lru ++ [CacheEntry.mk key m.cells.length n]).map
          CacheEntry.key).Nodup := by
        rw [List.map_append, List.nodup_append]
        refine ⟨hI.keys_nodup, by simp, ?_⟩
        intro a ha hb
        simp only [List.map_cons, List.map_nil, List.mem_singleton] at hb
        obtain ⟨e, he, rfl⟩ := List.mem_map.1 ha
        exact hno e he hb
      have hvals : ((m.body_.cache.lru ++ [CacheEntry.mk key m.cells.length n]).map
          CacheEntry.value).Nodup := by
        rw [List.map_append, List.nodup_append]
        refine ⟨hI.values_nodup, by simp, ?_⟩
        intro a ha hb
        simp only [List.map_cons, List.map_nil, List.mem_singleton] at hb
        obtain ⟨e, he, rfl⟩ := List.mem_map.1 ha
        exact absurd hb (Nat.ne_of_lt (hvals_lt e he))
      have hdisj : ∀ e ∈ kept, e.value ∉ dropped.map CacheEntry.value := by
        rw [← hsplit, List.map_append, List.nodup_append] at hvals
        intro e he hd
        exact hvals.2.2 hd (List.mem_map_of_mem _ he)
      have hbody : ∀ mm : Machine, (dropped.foldl bucket_mem_free mm).body_ = mm.body_ :=
        fun mm => foldl_free_body dropped mm
      rw [hfresh]
      constructor
      · rw [hbody]; exact (hsub.map _).nodup hkeys
      · rw [hbody]; exact (hsub.map _).nodup hvals
      · rw [hbody]
        intro e he
        have he : e ∈ kept := he
        have hmem := hsub.subset he
        simp only [foldl_free_cells_other _ _ _ (hdisj e he), foldl_free_vecs,
          foldl_free_records]
        show ∃ v, (load ext m key dataset r).2.cells[e.value]? = _ ∧
          v < (load ext m key dataset r).2.vecs.length ∧
          ((load ext m key dataset r).2.records v).length = e.charge
        rw [load_cells, load_vecs_length]
        rcases List.mem_append.1 hmem with hold | hnew
        · obtain ⟨v, h1, h2, h3⟩ := hI.cells_live e hold
          refine ⟨v, ?_, Nat.lt_succ_of_lt h2, ?_⟩
          · rw [List.getElem?_append_left (hvals_lt e hold)]; exact h1
          · rw [load_records_old ext m key dataset r v h2]; exact h3
        · simp only [List.mem_singleton] at hnew
          subst hnew
          exact ⟨m.vecs.length, by simp, Nat.lt_succ_self _, hn⟩
      · rw [hbody]
        intro e he
        have hmem := hsub.subset (show e ∈ kept from he)
        show (m.body_.db.get m.body_.coll e.key).1.code ≠ _
        rcases List.mem_append.1 hmem with hold | hnew
        · exact hI.stored e hold
        · simp only [List.mem_singleton] at hnew
          subst hnew
          intro hnf
          rw [load_not_found ext m key dataset r hnf] at hbad
          exact hbad rfl

theorem from_db_log (ext : Externals) (m : Machine) (key dataset : String) (r : range)
    (v : VecId) :
    ∃ pre, (get_bucket_from_db ext m key dataset r v).2.log =
        pre ++ Event.db_get m.body_.coll key :: m.log ∧ ∀ e ∈ pre, LoopEvent v e := by
  unfold get_bucket_from_db
  simp only
  split_ifs
  · exact ⟨[], by simp, by simp⟩
  · exact ⟨[Event.reader_Open (m.body_.db.get m.body_.coll key).2], by simp,
      by simp [LoopEvent]⟩
  · obtain ⟨pre, h1, h2⟩ := read_loop_log ext dataset r v
      (ext.Open (m.body_.db.get m.body_.coll key).2).2.pending
      ((m.emit (Event.db_get m.body_.coll key)).emit
        (Event.reader_Open (m.body_.db.get m.body_.coll key).2))
    refine ⟨pre ++ [Event.reader_Open (m.body_.db.get m.body_.coll key).2], ?_, ?_⟩
    · rw [h1]; simp
    · intro e he
      rcases List.mem_append.1 he with h | h
      · exact h2 e h
      · simp only [List.mem_singleton] at h
        subst h; simp [LoopEvent]

theorem load_log (ext : Externals) (m : Machine) (key dataset : String) (r : range) :
    ∃ pre, (load ext m key dataset r).2.log =
        pre ++ Event.db_get m.body_.coll key :: Event.cache_Lookup key :: m.log ∧
      ∀ e ∈ pre, LoopEvent m.vecs.length e := by
  unfold load
  exact from_db_log ext (m.alloc_bucket key) key dataset r m.vecs.length

/-- `get_bucket` never changes the store, the collection handle or the capacity. -/
theorem get_bucket_frame (ext : Externals) (m : Machine) (key dataset : String) (r : range)
    (accu : StatsRangeQuery) (ans : BktT) :
    (BCFBucketCache.get_bucket ext m key dataset r accu ans).m.body_.db = m.body_.db ∧
    (BCFBucketCache.get_bucket ext m key dataset r accu ans).m.body_.coll = m.body_.coll ∧
    (BCFBucketCache.get_bucket ext m key dataset r accu ans).m.body_.cache.capacity =
      m.body_.cache.capacity := by
  cases hlk : (m.body_.cache.Lookup key).1 with
  | some hndl =>
    rw [hit_path_eq ext m key dataset r accu ans hndl hlk]
    exact ⟨rfl, rfl, (Lookup_perm _ _).2⟩
  | none =>
    rw [miss_path_eq ext m key dataset r accu ans hlk]
    split_ifs
    · rw [load_body]; exact ⟨rfl, rfl, rfl⟩
    · rw [foldl_free_body]; exact ⟨rfl, rfl, rfl⟩

theorem get_bucket_cells_mono (ext : Externals) (m : Machine) (key dataset : String)
    (r : range) (accu : StatsRangeQuery) (ans : BktT) (c : CellId) (hc : c < m.cells.length) :
    (BCFBucketCache.get_bucket ext m key dataset r accu ans).m.cells[c]? = m.cells[c]? ∨
    (BCFBucketCache.get_bucket ext m key dataset r accu ans).m.cells[c]? = some Cell.freed := by
  cases hlk : (m.body_.cache.Lookup key).1 with
  | some hndl =>
    rw [hit_path_eq ext m key dataset r accu ans hndl hlk]
    exact Or.inl rfl
  | none =>
    rw [miss_path_eq ext m key dataset r accu ans hlk]
    split_ifs
    · left
      show (load ext m key dataset r).2.cells[c]? = _
      rw [load_cells, List.getElem?_append_left hc]
    · have h := foldl_free_cells_mono
        (m.body_.cache.Insert key m.cells.length
          ((load ext m key dataset r).2.records m.vecs.length).length).2
        { (load ext m key dataset r).2 with
          body_ := { m.body_ with cache := (m.body_.cache.Insert key m.cells.length
            ((load ext m key dataset r).2.records m.vecs.length).length).1 },
          log := Event.cache_Insert key m.cells.length
              ((load ext m key dataset r).2.records m.vecs.length).length ::
            Event.assign_ans (some m.vecs.length) :: (load ext m key dataset r).2.log } c
      have h2 : (load ext m key dataset r).2.cells[c]? = m.cells[c]? := by
        rw [load_cells, List.getElem?_append_left hc]
      simp only [h2] at h
      exact h

theorem get_bucket_cells_length (ext : Externals) (m : Machine) (key dataset : String)
    (r : range) (accu : StatsRangeQuery) (ans : BktT) :
    m.cells.length ≤ (BCFBucketCache.get_bucket ext m key dataset r accu ans).m.cells.length := by
  cases hlk : (m.body_.cache.Lookup key).1 with
  | some hndl =>
    rw [hit_path_eq ext m key dataset r accu ans hndl hlk]
  | none =>
    rw [miss_path_eq ext m key dataset r accu ans hlk]
    split_ifs
    · show _ ≤ (load ext m key dataset r).2.cells.length
      rw [load_cells]; simp
    · rw [foldl_free_cells_length]
      show _ ≤ (load ext m key dataset r).2.cells.length
      rw [load_cells]; simp

/-- Vectors that exist before a `get_bucket` call keep their records. -/
theorem get_bucket_vecs_old (ext : Externals) (m : Machine) (key dataset : String)
    (r : range) (accu : StatsRangeQuery) (ans : BktT) (v : VecId) (hv : v < m.vecs.length) :
    (BCFBucketCache.get_bucket ext m key dataset r accu ans).m.vecs[v]? = m.vecs[v]? := by
  cases hlk : (m.body_.cache.Lookup key).1 with
  | some hndl =>
    rw [hit_path_eq ext m key dataset r accu ans hndl hlk]
  | none =>
    rw [miss_path_eq ext m key dataset r accu ans hlk]
    split_ifs
    · exact load_vecs_old ext m key dataset r v hv
    · rw [foldl_free_vecs]
      exact load_vecs_old ext m key dataset r v hv

theorem Steps_Inv (ext : Externals) (m m1 : Machine) (h : Steps ext m m1) (hI : Inv m) :
    Inv m1 := by
  induction h with
  | refl => exact hI
  | call key dataset r accu ans _ ih => exact Inv_get_bucket ext _ key dataset r accu ans ih

theorem Steps_frame (ext : Externals) (m m1 : Machine) (h : Steps ext m m1) :
    m1.body_.db = m.body_.db ∧ m1.body_.coll = m.body_.coll ∧
      m1.body_.cache.capacity = m.body_.cache.capacity := by
  induction h with
  | refl => exact ⟨rfl, rfl, rfl⟩
  | call key dataset r accu ans _ ih =>
    obtain ⟨h1, h2, h3⟩ := get_bucket_frame ext _ key dataset r accu ans
    exact ⟨h1.trans ih.1, h2.trans ih.2.1, h3.trans ih.2.2⟩

theorem Steps_cells_mono (ext : Externals) (m m1 : Machine) (h : Steps ext m m1) (c : CellId)
    (hc : c < m.cells.length) :
    c < m1.cells.length ∧ (m1.cells[c]? = m.cells[c]? ∨ m1.cells[c]? = some Cell.freed) := by
  induction h with
  | refl => exact ⟨hc, Or.inl rfl⟩
  | call key dataset r accu ans _ ih =>
    refine ⟨Nat.lt_of_lt_of_le ih.1 (get_bucket_cells_length ext _ key dataset r accu ans), ?_⟩
    rcases get_bucket_cells_mono ext _ key dataset r accu ans c ih.1 with h | h
    · rw [h]; exact ih.2
    · exact Or.inr h

theorem Open_body (db : KeyValue.DB) :
    (BCFBucketCache.Open db).m.body_.db = db ∧
    (BCFBucketCache.Open db).m.body_.coll = (db.collection "bcf").2 ∧
    (BCFBucketCache.Open db).m.body_.cache = ⟨100000, []⟩ ∧
    (BCFBucketCache.Open db).m.cells = [] ∧ (BCFBucketCache.Open db).m.vecs = [] ∧
    (BCFBucketCache.Open db).m.log = [Event.db_collection "bcf"] := by
  unfold BCFBucketCache.Open
  simp only
  split_ifs <;> exact ⟨rfl, rfl, rfl, rfl, rfl, rfl⟩

theorem Reachable_Inv (ext : Externals) (db : KeyValue.DB) (m : Machine)
    (h : Reachable ext db m) : Inv m :=
  Steps_Inv ext _ m h (Inv_open db)

theorem Reachable_db (ext : Externals) (db : KeyValue.DB) (m : Machine)
    (h : Reachable ext db m) : m.body_.db = db :=
  (Steps_frame ext _ m h).1.trans (Open_body db).1

theorem ok_not_bad (s : Status) (h : s.ok = true) : s.bad = false := by
  simp [Status.bad, h]

theorem ok_code (s : Status) (h : s.ok = true) : s.code ≠ StatusCode.NOT_FOUND := by
  simp only [Status.ok, decide_eq_true_eq] at h
  rw [h]; decide

theorem alloc_records_new (m : Machine) (key : String) :
    (m.alloc_bucket key).records m.vecs.length = [] := by
  simp [Machine.alloc_bucket, Machine.records]

/-- The load of a present blob whose reader opens: it is the decode loop. -/
theorem load_present (ext : Externals) (m : Machine) (key dataset : String) (r : range)
    (hget : (m.body_.db.get m.body_.coll key).1.code ≠ StatusCode.NOT_FOUND)
    (hopen : (ext.Open (m.body_.db.get m.body_.coll key).2).1.ok = true) :
    load ext m key dataset r =
      read_loop ext dataset r m.vecs.length
        (ext.Open (m.body_.db.get m.body_.coll key).2).2.pending
        (((m.alloc_bucket key).emit (Event.db_get m.body_.coll key)).emit
          (Event.reader_Open (m.body_.db.get m.body_.coll key).2)) := by
  unfold load get_bucket_from_db
  have h1 : (m.alloc_bucket key).body_ = m.body_ := rfl
  simp only [h1]
  rw [if_neg hget, if_neg (by simp [S_returns, ok_not_bad _ hopen])]

theorem load_unpack_failure (ext : Externals) (m : Machine) (key dataset : String) (r : range)
    (good rest : List (Status × bcf1_t)) (sb : Status) (bad : bcf1_t)
    (hget : (m.body_.db.get m.body_.coll key).1.code ≠ StatusCode.NOT_FOUND)
    (hopen : (ext.Open (m.body_.db.get m.body_.coll key).2).1.ok = true)
    (hpend : (ext.Open (m.body_.db.get m.body_.coll key).2).2.pending =
      good ++ (sb, bad) :: rest)
    (hgood : ∀ p ∈ good, Good ext p) (hsb : sb.ok = true) (hbad : ext.bcf_unpack bad ≠ 0) :
    (load ext m key dataset r).1 =
      Status.IOError "BCFKeyValueData::dataset_bcf bcf_unpack"
        (dataset ++ "@" ++ ext.range_str r) ∧
    (load ext m key dataset r).2.records m.vecs.length = good.map Prod.snd := by
  rw [load_present ext m key dataset r hget hopen, hpend]
  obtain ⟨m1, h1, h2, _⟩ := read_loop_good_status ext dataset r m.vecs.length good
    ((sb, bad) :: rest)
    (((m.alloc_bucket key).emit (Event.db_get m.body_.coll key)).emit
      (Event.reader_Open (m.body_.db.get m.body_.coll key).2)) hgood
  rw [h1]
  simp only [read_loop, if_pos hsb, if_pos hbad, true_and]
  have h3 := h2 (by simp [Machine.alloc_bucket])
  have h4 : (((m.alloc_bucket key).emit (Event.db_get m.body_.coll key)).emit
      (Event.reader_Open (m.body_.db.get m.body_.coll key).2)).records m.vecs.length = [] :=
    alloc_records_new m key
  rw [h4] at h3
  simpa [Machine.records] using h3

theorem load_all_good (ext : Externals) (m : Machine) (key dataset : String) (r : range)
    (hget : (m.body_.db.get m.body_.coll key).1.code ≠ StatusCode.NOT_FOUND)
    (hopen : (ext.Open (m.body_.db.get m.body_.coll key).2).1.ok = true)
    (hgood : ∀ p ∈ (ext.Open (m.body_.db.get m.body_.coll key).2).2.pending, Good ext p) :
    (load ext m key dataset r).1 = Status.OK ∧
    (load ext m key dataset r).2.records m.vecs.length =
      (ext.Open (m.body_.db.get m.body_.coll key).2).2.pending.map Prod.snd := by
  rw [load_present ext m key dataset r hget hopen]
  obtain ⟨m1, h1, h2, _⟩ := read_loop_good_status ext dataset r m.vecs.length
    (ext.Open (m.body_.db.get m.body_.coll key).2).2.pending []
    (((m.alloc_bucket key).emit (Event.db_get m.body_.coll key)).emit
      (Event.reader_Open (m.body_.db.get m.body_.coll key).2)) hgood
  rw [List.append_nil] at h1
  rw [h1]
  simp only [read_loop, true_and]
  have h3 := h2 (by simp [Machine.alloc_bucket])
  have h4 : (((m.alloc_bucket key).emit (Event.db_get m.body_.coll key)).emit
      (Event.reader_Open (m.body_.db.get m.body_.coll key).2)).records m.vecs.length = [] :=
    alloc_records_new m key
  rw [h4] at h3
  simpa [Machine.records] using h3

/-- On a miss the trace grows by the lookup, then the store read, then whatever follows. -/
theorem get_bucket_miss_log (ext : Externals) (m : Machine) (key dataset : String) (r : range)
    (accu : StatsRangeQuery) (ans : BktT) (h : (m.body_.cache.Lookup key).1 = none) :
    ∃ pre, (BCFBucketCache.get_bucket ext m key dataset r accu ans).m.log =
      pre ++ Event.db_get m.body_.coll key :: Event.cache_Lookup key :: m.log := by
  obtain ⟨pre, h1, _⟩ := load_log ext m key dataset r
  rw [miss_path_eq ext m key dataset r accu ans h]
  split_ifs
  · exact ⟨pre, h1⟩
  · refine ⟨Event.cache_Insert key m.cells.length
      ((load ext m key dataset r).2.records m.vecs.length).length ::
      Event.assign_ans (some m.vecs.length) :: pre, ?_⟩
    rw [foldl_free_log]
    show _ :: _ :: (load ext m key dataset r).2.log = _
    rw [h1]; rfl

theorem find_of_nodup_keys (l : List CacheEntry) (e : CacheEntry)
    (hn : (l.map CacheEntry.key).Nodup) (he : e ∈ l) :
    l.find? (fun x => decide (x.key = e.key)) = some e := by
  induction l with
  | nil => simp at he
  | cons a rest ih =>
    simp only [List.map_cons, List.nodup_cons] at hn
    rcases List.mem_cons.1 he with h | h
    · subst h; simp
    · have hne : a.key ≠ e.key := by
        intro hk
        exact hn.1 (hk ▸ List.mem_map_of_mem _ h)
      simp [List.find?, hne, ih hn.2 h]

theorem Lookup_of_mem (c : LRUCache) (e : CacheEntry)
    (hn : (c.lru.map CacheEntry.key).Nodup) (he : e ∈ c.lru) :
    (c.Lookup e.key).1 = some e := by
  unfold LRUCache.Lookup
  rw [find_of_nodup_keys c.lru e hn he]

theorem deref_of_cell (m : Machine) (c : CellId) (p : BktT)
    (h : m.cells[c]? = some (Cell.live p)) : m.deref c = p := by
  simp [Machine.deref, h]

/-- After a successful miss from a state satisfying the invariant, if the new entry is
resident then its cell is live and holds the vector just loaded. -/
theorem miss_new_cell (ext : Externals) (m : Machine) (key dataset : String) (r : range)
    (accu : StatsRangeQuery) (ans : BktT) (hI : Inv m)
    (hmiss : (m.body_.cache.Lookup key).1 = none)
    (hok : (load ext m key dataset r).1.bad = false) (e : CacheEntry)
    (he : e ∈ (BCFBucketCache.get_bucket ext m key dataset r accu ans).m.body_.cache.lru)
    (hv : e.value = m.cells.length) :
    (BCFBucketCache.get_bucket ext m key dataset r accu ans).m.deref m.cells.length =
      some m.vecs.length := by
  have hI1 := Inv_get_bucket ext m key dataset r accu ans hI
  obtain ⟨v, h1, _, _⟩ := hI1.cells_live e he
  rw [hv] at h1
  have hmono : (BCFBucketCache.get_bucket ext m key dataset r accu ans).m.cells[m.cells.length]?
      = (load ext m key dataset r).2.cells[m.cells.length]? ∨
      (BCFBucketCache.get_bucket ext m key dataset r accu ans).m.cells[m.cells.length]?
      = some Cell.freed := by
    rw [miss_path_eq ext m key dataset r accu ans hmiss, if_neg (by simp [hok])]
    exact foldl_free_cells_mono _ _ _
  rcases hmono with h | h
  · apply deref_of_cell
    rw [h, load_cells]; simp
  · rw [h] at h1; simp at h1

theorem entry_unique (l : List CacheEntry) (a b : CacheEntry)
    (hn : (l.map CacheEntry.key).Nodup) (ha : a ∈ l) (hb : b ∈ l) (hk : a.key = b.key) :
    a = b := by
  have h1 := find_of_nodup_keys l a hn ha
  have h2 := find_of_nodup_keys l b hn hb
  rw [hk, h2] at h1
  exact (Option.some.inj h1).symm

theorem cell_lt_of_live (m : Machine) (c : CellId) (x : Cell) (h : m.cells[c]? = some x) :
    c < m.cells.length := by
  by_contra hc
  rw [List.getElem?_eq_none (Nat.le_of_not_lt hc)] at h
  exact Option.noConfusion h

theorem get_bucket_vecs_length (ext : Externals) (m : Machine) (key dataset : String)
    (r : range) (accu : StatsRangeQuery) (ans : BktT) :
    m.vecs.length ≤ (BCFBucketCache.get_bucket ext m key dataset r accu ans).m.vecs.length := by
  cases hlk : (m.body_.cache.Lookup key).1 with
  | some hndl =>
    rw [hit_path_eq ext m key dataset r accu ans hndl hlk]
  | none =>
    rw [miss_path_eq ext m key dataset r accu ans hlk]
    split_ifs
    · show _ ≤ (load ext m key dataset r).2.vecs.length
      rw [load_vecs_length]; exact Nat.le_succ _
    · rw [foldl_free_vecs]
      show _ ≤ (load ext m key dataset r).2.vecs.length
      rw [load_vecs_length]; exact Nat.le_succ _

theorem Steps_vecs_old (ext : Externals) (m m1 : Machine) (h : Steps ext m m1) (v : VecId)
    (hv : v < m.vecs.length) : v < m1.vecs.length ∧ m1.vecs[v]? = m.vecs[v]? := by
  induction h with
  | refl => exact ⟨hv, rfl⟩
  | call key dataset r accu ans _ ih =>
    refine ⟨Nat.lt_of_lt_of_le ih.1 (get_bucket_vecs_length ext _ key dataset r accu ans), ?_⟩
    rw [get_bucket_vecs_old ext _ key dataset r accu ans v ih.1]
    exact ih.2

/-- An entry that is resident before and after a run of calls keeps its cell content. -/
theorem Steps_deref (ext : Externals) (m m1 : Machine) (h : Steps ext m m1) (hI : Inv m)
    (e : CacheEntry) (he : e ∈ m.body_.cache.lru) (he1 : e ∈ m1.body_.cache.lru) :
    m1.deref e.value = m.deref e.value := by
  obtain ⟨v, h1, _, _⟩ := hI.cells_live e he
  obtain ⟨v1, h2, _, _⟩ := (Steps_Inv ext m m1 h hI).cells_live e he1
  rcases (Steps_cells_mono ext m m1 h e.value (cell_lt_of_live m _ _ h1)).2 with h3 | h3
  · rw [h3, h1] at h2
    rw [deref_of_cell _ _ _ (h3.trans h1), deref_of_cell _ _ _ h1]
  · rw [h3] at h2; simp at h2

/-- After a successful request, the entry resident for the key holds the handle returned. -/
theorem resident_is_answer (ext : Externals) (m : Machine) (key dataset : String) (r : range)
    (accu : StatsRangeQuery) (ans : BktT) (hI : Inv m)
    (hok : (BCFBucketCache.get_bucket ext m key dataset r accu ans).status.ok = true)
    (e : CacheEntry)
    (he : e ∈ (BCFBucketCache.get_bucket ext m key dataset r accu ans).m.body_.cache.lru)
    (hk : e.key = key) :
    (BCFBucketCache.get_bucket ext m key dataset r accu ans).m.deref e.value =
      (BCFBucketCache.get_bucket ext m key dataset r accu ans).ans := by
  cases hlk : (m.body_.cache.Lookup key).1 with
  | some hndl =>
    obtain ⟨h1, h2, _⟩ := Lookup_some _ _ _ hlk
    have he0 : e ∈ m.body_.cache.lru := by
      rw [hit_path_eq ext m key dataset r accu ans hndl hlk] at he
      exact (Lookup_perm _ _).1.mem_iff.1 he
    have heq : e = hndl := entry_unique _ _ _ hI.keys_nodup he0 h1 (hk.trans h2.symm)
    rw [hit_path_eq ext m key dataset r accu ans hndl hlk, heq]
    rfl
  | none =>
    have hno := (Lookup_none_iff _ _).1 hlk
    have hb : (load ext m key dataset r).1.bad = false := by
      by_contra hbad
      rw [miss_path_eq ext m key dataset r accu ans hlk,
        if_pos (by simpa using hbad)] at hok
      simp only [Status.bad, hok] at hbad
      exact hbad rfl
    have hval : e.value = m.cells.length := by
      have he' := he
      rw [miss_path_eq ext m key dataset r accu ans hlk, if_neg (by simp [hb]),
        foldl_free_body, Insert_fresh _ _ _ _ hno] at he'
      have hsplit := evict_split m.body_.cache.capacity (m.body_.cache.lru ++
        [CacheEntry.mk key m.cells.length
          ((load ext m key dataset r).2.records m.vecs.length).length])
      have hin : e ∈ m.body_.cache.lru ++ [CacheEntry.mk key m.cells.length
          ((load ext m key dataset r).2.records m.vecs.length).length] := by
        rw [← hsplit]; exact List.mem_append_right _ he'
      rcases List.mem_append.1 hin with h | h
      · exact absurd hk (hno e h)
      · simp only [List.mem_singleton] at h
        rw [h]
    rw [hval, miss_new_cell ext m key dataset r accu ans hI hlk hb e he hval,
      miss_path_eq ext m key dataset r accu ans hlk, if_neg (by simp [hb])]

theorem LoopEvent_not_publish (v : VecId) (e : Event) (h : LoopEvent v e) :
    (∀ k c n, e ≠ Event.cache_Insert k c n) ∧ (∀ p, e ≠ Event.assign_ans p) ∧
      (∀ w vt, e = Event.push_back w vt → w = v) := by
  cases e <;> simp_all [LoopEvent]

/-- A reader status that is not ok, whatever it is, ends the load with `Status::OK()` and
the records appended so far. -/
theorem load_read_error (ext : Externals) (m : Machine) (key dataset : String) (r : range)
    (good rest : List (Status × bcf1_t)) (s : Status) (vt : bcf1_t)
    (hget : (m.body_.db.get m.body_.coll key).1.code ≠ StatusCode.NOT_FOUND)
    (hopen : (ext.Open (m.body_.db.get m.body_.coll key).2).1.ok = true)
    (hpend : (ext.Open (m.body_.db.get m.body_.coll key).2).2.pending =
      good ++ (s, vt) :: rest)
    (hgood : ∀ p ∈ good, Good ext p) (hs : s.ok = false) :
    (load ext m key dataset r).1 = Status.OK ∧
    (load ext m key dataset r).2.records m.vecs.length = good.map Prod.snd := by
  rw [load_present ext m key dataset r hget hopen, hpend]
  obtain ⟨m1, h1, h2, _⟩ := read_loop_good_status ext dataset r m.vecs.length good
    ((s, vt) :: rest)
    (((m.alloc_bucket key).emit (Event.db_get m.body_.coll key)).emit
      (Event.reader_Open (m.body_.db.get m.body_.coll key).2)) hgood
  rw [h1]
  simp only [read_loop, hs, Bool.false_eq_true, if_false, true_and]
  have h3 := h2 (by simp [Machine.alloc_bucket])
  have h4 : (((m.alloc_bucket key).emit (Event.db_get m.body_.coll key)).emit
      (Event.reader_Open (m.body_.db.get m.body_.coll key).2)).records m.vecs.length = [] :=
    alloc_records_new m key
  rw [h4] at h3
  simpa [Machine.records] using h3

/-- Every miss whose load fails leaves the cell it allocated live, holding its vector, with
the cache and the caller's handle as they were; from a state satisfying the invariant no
cache entry refers to that cell. -/
theorem failed_miss_keeps_cell (ext : Externals) (m : Machine) (key dataset : String)
    (r : range) (accu : StatsRangeQuery) (ans : BktT) (hI : Inv m)
    (hmiss : (m.body_.cache.Lookup key).1 = none)
    (hbad : (load ext m key dataset r).1.bad = true) :
    (BCFBucketCache.get_bucket ext m key dataset r accu ans).m.cells =
      m.cells ++ [Cell.live (some m.vecs.length)] ∧
    (BCFBucketCache.get_bucket ext m key dataset r accu ans).m.body_.cache = m.body_.cache ∧
    (BCFBucketCache.get_bucket ext m key dataset r accu ans).ans = ans ∧
    (∀ e ∈ (BCFBucketCache.get_bucket ext m key dataset r accu ans).m.body_.cache.lru,
      e.value ≠ m.cells.length) := by
  rw [miss_path_eq ext m key dataset r accu ans hmiss, if_pos hbad]
  refine ⟨load_cells ext m key dataset r, ?_, rfl, ?_⟩
  · show (load ext m key dataset r).2.body_.cache = _
    rw [load_body]
  · intro e he
    have he1 : e ∈ m.body_.cache.lru := by
      have h : e ∈ (load ext m key dataset r).2.body_.cache.lru := he
      rwa [load_body] at h
    obtain ⟨v, h1, _, _⟩ := hI.cells_live e he1
    exact Nat.ne_of_lt (cell_lt_of_live m _ _ h1)

/-! ## The claims -/

/-- C1: in every state reachable from `Open(db)`, a request for a key that has no entry in
the store (the store's `get` returns `NOT_FOUND`) returns `NotFound`, leaves the counter
`nBCFRecordsReadFromDB` and the caller's handle as they were, leaves the cache exactly as it
was, and emits only the lookup and the store read (no insert). -/
theorem get_bucket_absent_key (ext : Externals) (db : KeyValue.DB) (m : Machine)
    (K dataset : String) (r : range) (accu : StatsRangeQuery) (ans : BktT)
    (hr : Reachable ext db m)
    (hK : (db.get m.body_.coll K).1.code = StatusCode.NOT_FOUND) :
    (BCFBucketCache.get_bucket ext m K dataset r accu ans).status = Status.NotFound ∧
    (BCFBucketCache.get_bucket ext m K dataset r accu ans).accu = accu ∧
    (BCFBucketCache.get_bucket ext m K dataset r accu ans).m.body_.cache = m.body_.cache ∧
    (BCFBucketCache.get_bucket ext m K dataset r accu ans).ans = ans ∧
    (BCFBucketCache.get_bucket ext m K dataset r accu ans).m.log =
      Event.db_get m.body_.coll K :: Event.cache_Lookup K :: m.log := by
  have hI := Reachable_Inv ext db m hr
  have hdb := Reachable_db ext db m hr
  have hK1 : (m.body_.db.get m.body_.coll K).1.code = StatusCode.NOT_FOUND := by
    rw [hdb]; exact hK
  have hmiss : (m.body_.cache.Lookup K).1 = none := by
    rw [Lookup_none_iff]
    intro e he hk
    exact hI.stored e he (by rw [hk]; exact hK1)
  rw [miss_path_eq ext m K dataset r accu ans hmiss,
    load_not_found ext m K dataset r hK1]
  have hb : Status.NotFound.bad = true := rfl
  rw [if_pos hb]
  refine ⟨rfl, ?_, rfl, rfl, rfl⟩
  have : ((m.alloc_bucket K).emit (Event.db_get m.body_.coll K)).records m.vecs.length = [] :=
    alloc_records_new m K
  simp [this]

/-- C1, at a concrete input: key "missing" is absent from the example store, requested in
the state after one request for "good". -/
theorem get_bucket_absent_key_witness :
    Reachable demo_ext demo_db demo_m1 ∧
    (demo_db.get demo_m1.body_.coll "missing").1.code = StatusCode.NOT_FOUND ∧
    (BCFBucketCache.get_bucket demo_ext demo_m1 "missing" "ds" demo_range ⟨2⟩ (some 0)).status
      = Status.NotFound ∧
    (BCFBucketCache.get_bucket demo_ext demo_m1 "missing" "ds" demo_range ⟨2⟩ (some 0)).accu
      = ⟨2⟩ ∧
    (BCFBucketCache.get_bucket demo_ext demo_m1 "missing" "ds" demo_range ⟨2⟩
      (some 0)).m.body_.cache = demo_m1.body_.cache :=
  have hr : Reachable demo_ext demo_db demo_m1 :=
    Steps.call "good" "ds" demo_range ⟨0⟩ none (Steps.refl _)
  have hk : (demo_db.get demo_m1.body_.coll "missing").1.code = StatusCode.NOT_FOUND := by
    decide
  have h := get_bucket_absent_key demo_ext demo_db demo_m1 "missing" "ds" demo_range ⟨2⟩
    (some 0) hr hk
  ⟨hr, hk, h.1, h.2.1, h.2.2.1⟩

/-- C2: from a state reachable from `Open`, if a first request for K succeeds, and the
entry that is resident for K after it is still resident after any number of further
requests (no eviction of it in between), then a second request for K returns OK with the
same handle as the first (same vector identity, and that vector holds the same records),
leaves the counter unchanged, and emits only the lookup and the assignment to the caller's
handle: no store read. -/
theorem get_bucket_twice_same_bucket (ext : Externals) (db : KeyValue.DB) (m m2 : Machine)
    (K dataset dataset2 : String) (r r2 : range) (accu accu2 : StatsRangeQuery)
    (ans ans2 : BktT) (e : CacheEntry)
    (hr : Reachable ext db m)
    (hok : (BCFBucketCache.get_bucket ext m K dataset r accu ans).status.ok = true)
    (he1 : e ∈ (BCFBucketCache.get_bucket ext m K dataset r accu ans).m.body_.cache.lru)
    (hk : e.key = K)
    (hsteps : Steps ext (BCFBucketCache.get_bucket ext m K dataset r accu ans).m m2)
    (he2 : e ∈ m2.body_.cache.lru) :
    (BCFBucketCache.get_bucket ext m2 K dataset2 r2 accu2 ans2).status = Status.OK ∧
    (BCFBucketCache.get_bucket ext m2 K dataset2 r2 accu2 ans2).ans =
      (BCFBucketCache.get_bucket ext m K dataset r accu ans).ans ∧
    (∃ v, (BCFBucketCache.get_bucket ext m K dataset r accu ans).ans = some v ∧
      (BCFBucketCache.get_bucket ext m2 K dataset2 r2 accu2 ans2).m.records v =
        (BCFBucketCache.get_bucket ext m K dataset r accu ans).m.records v) ∧
    (BCFBucketCache.get_bucket ext m2 K dataset2 r2 accu2 ans2).accu = accu2 ∧
    (BCFBucketCache.get_bucket ext m2 K dataset2 r2 accu2 ans2).m.log =
      Event.assign_ans (BCFBucketCache.get_bucket ext m K dataset r accu ans).ans ::
        Event.cache_Lookup K :: m2.log := by
  have hI := Reachable_Inv ext db m hr
  have hI1 := Inv_get_bucket ext m K dataset r accu ans hI
  have hI2 := Steps_Inv ext _ m2 hsteps hI1
  have hans := resident_is_answer ext m K dataset r accu ans hI hok e he1 hk
  have hd := Steps_deref ext _ m2 hsteps hI1 e he1 he2
  have hlk : (m2.body_.cache.Lookup K).1 = some e := by
    rw [← hk]; exact Lookup_of_mem _ _ hI2.keys_nodup he2
  have h2 : m2.deref e.value = (BCFBucketCache.get_bucket ext m K dataset r accu ans).ans :=
    hd.trans hans
  obtain ⟨v, hv1, hv2, _⟩ := hI1.cells_live e he1
  have hv : (BCFBucketCache.get_bucket ext m K dataset r accu ans).ans = some v := by
    rw [← hans]; exact deref_of_cell _ _ _ hv1
  have hvec := (Steps_vecs_old ext _ m2 hsteps v hv2).2
  rw [hit_path_eq ext m2 K dataset2 r2 accu2 ans2 e hlk, h2]
  refine ⟨rfl, rfl, ⟨v, hv, ?_⟩, rfl, rfl⟩
  show m2.vecs.getD v [] = _
  simp only [Machine.records, List.getD_eq_getElem?_getD, hvec]

/-- C2, at a concrete input: on the example store, "good" is requested, then "unpack"
(which fails), then "good" again. -/
theorem get_bucket_twice_same_bucket_witness :
    Reachable demo_ext demo_db demo_m0 ∧
    (BCFBucketCache.get_bucket demo_ext demo_m0 "good" "ds" demo_range ⟨0⟩ none).status.ok
      = true ∧
    (⟨"good", 0, 2⟩ : CacheEntry) ∈
      (BCFBucketCache.get_bucket demo_ext demo_m0 "good" "ds" demo_range ⟨0⟩
        none).m.body_.cache.lru ∧
    (⟨"good", 0, 2⟩ : CacheEntry) ∈ demo_m2.body_.cache.lru ∧
    (BCFBucketCache.get_bucket demo_ext demo_m2 "good" "ds2" demo_range ⟨3⟩ none).status =
      Status.OK ∧
    (BCFBucketCache.get_bucket demo_ext demo_m2 "good" "ds2" demo_range ⟨3⟩ none).ans =
      (BCFBucketCache.get_bucket demo_ext demo_m0 "good" "ds" demo_range ⟨0⟩ none).ans ∧
    (BCFBucketCache.get_bucket demo_ext demo_m2 "good" "ds2" demo_range ⟨3⟩ none).accu =
      ⟨3⟩ :=
  have h := get_bucket_twice_same_bucket demo_ext demo_db demo_m0 demo_m2 "good" "ds" "ds2"
    demo_range demo_range ⟨0⟩ ⟨3⟩ none none ⟨"good", 0, 2⟩ (Steps.refl _) (by decide)
    (by decide) rfl (Steps.call "unpack" "ds" demo_range ⟨2⟩ none (Steps.refl _)) (by decide)
  ⟨Steps.refl _, by decide, by decide, by decide, h.1, h.2.1, h.2.2.2.1⟩

/-- C3: when the key is not resident, its blob is present, the reader opens, and the reader
yields N records that read and unpack successfully followed by a record that reads but
whose `bcf_unpack` fails, `get_bucket` returns the `IOError` naming dataset and range, the
counter grows by exactly N, the caller's handle is untouched, the cache is exactly as before
(so it has no entry for the key), and any later request for the key reads the store
again. -/
theorem get_bucket_unpack_failure (ext : Externals) (m : Machine) (K dataset : String)
    (r : range) (accu : StatsRangeQuery) (ans : BktT)
    (good rest : List (Status × bcf1_t)) (sb : Status) (bad : bcf1_t)
    (hmiss : (m.body_.cache.Lookup K).1 = none)
    (hget : (m.body_.db.get m.body_.coll K).1.ok = true)
    (hopen : (ext.Open (m.body_.db.get m.body_.coll K).2).1.ok = true)
    (hpend : (ext.Open (m.body_.db.get m.body_.coll K).2).2.pending =
      good ++ (sb, bad) :: rest)
    (hgood : ∀ p ∈ good, p.1.ok = true ∧ ext.bcf_unpack p.2 = 0)
    (hsb : sb.ok = true) (hbad : ext.bcf_unpack bad ≠ 0) :
    (BCFBucketCache.get_bucket ext m K dataset r accu ans).status =
      Status.IOError "BCFKeyValueData::dataset_bcf bcf_unpack"
        (dataset ++ "@" ++ ext.range_str r) ∧
    (BCFBucketCache.get_bucket ext m K dataset r accu ans).accu.nBCFRecordsReadFromDB =
      accu.nBCFRecordsReadFromDB + good.length ∧
    (BCFBucketCache.get_bucket ext m K dataset r accu ans).ans = ans ∧
    (BCFBucketCache.get_bucket ext m K dataset r accu ans).m.body_.cache = m.body_.cache ∧
    ((BCFBucketCache.get_bucket ext m K dataset r accu ans).m.body_.cache.Lookup K).1 = none ∧
    (∀ e ∈ (BCFBucketCache.get_bucket ext m K dataset r accu ans).m.body_.cache.lru,
      e.key ≠ K) ∧
    (∀ (dataset1 : String) (r1 : range) (accu1 : StatsRangeQuery) (ans1 : BktT),
      ∃ pre, (BCFBucketCache.get_bucket ext
          (BCFBucketCache.get_bucket ext m K dataset r accu ans).m K dataset1 r1 accu1 ans1).m.log
        = pre ++ Event.db_get m.body_.coll K :: Event.cache_Lookup K ::
          (BCFBucketCache.get_bucket ext m K dataset r accu ans).m.log) := by
  obtain ⟨h1, h2⟩ := load_unpack_failure ext m K dataset r good rest sb bad
    (ok_code _ hget) hopen hpend hgood hsb hbad
  have hb : (load ext m K dataset r).1.bad = true := by rw [h1]; rfl
  have hcache : (BCFBucketCache.get_bucket ext m K dataset r accu ans).m.body_.cache =
      m.body_.cache := by
    rw [miss_path_eq ext m K dataset r accu ans hmiss, if_pos hb]
    show (load ext m K dataset r).2.body_.cache = _
    rw [load_body]
  have hcoll := (get_bucket_frame ext m K dataset r accu ans).2.1
  have hmiss1 : ((BCFBucketCache.get_bucket ext m K dataset r accu ans).m.body_.cache.Lookup
      K).1 = none := by rw [hcache]; exact hmiss
  refine ⟨?_, ?_, ?_, hcache, hmiss1, ?_, ?_⟩
  · rw [miss_path_eq ext m K dataset r accu ans hmiss, if_pos hb]; exact h1
  · rw [miss_path_eq ext m K dataset r accu ans hmiss, if_pos hb]
    show _ + ((load ext m K dataset r).2.records m.vecs.length).length = _
    rw [h2, List.length_map]
  · rw [miss_path_eq ext m K dataset r accu ans hmiss, if_pos hb]
  · exact (Lookup_none_iff _ _).1 hmiss1
  · intro dataset1 r1 accu1 ans1
    obtain ⟨pre, hpre⟩ := get_bucket_miss_log ext
      (BCFBucketCache.get_bucket ext m K dataset r accu ans).m K dataset1 r1 accu1 ans1 hmiss1
    rw [hcoll] at hpre
    exact ⟨pre, hpre⟩

/-- C3, at a concrete input: in the example, the blob of key "unpack" yields record 3 and
then record 9, on which `bcf_unpack` fails; N = 1. -/
theorem get_bucket_unpack_failure_witness :
    (demo_m1.body_.cache.Lookup "unpack").1 = none ∧
    (demo_m1.body_.db.get demo_m1.body_.coll "unpack").1.ok = true ∧
    (demo_ext.Open (demo_m1.body_.db.get demo_m1.body_.coll "unpack").2).2.pending =
      [(Status.OK, ⟨3⟩)] ++ (Status.OK, ⟨9⟩) :: [(Status.OK, ⟨4⟩)] ∧
    (BCFBucketCache.get_bucket demo_ext demo_m1 "unpack" "ds" demo_range ⟨2⟩ none).status =
      Status.IOError "BCFKeyValueData::dataset_bcf bcf_unpack"
        ("ds" ++ "@" ++ demo_ext.range_str demo_range) ∧
    (BCFBucketCache.get_bucket demo_ext demo_m1 "unpack" "ds" demo_range ⟨2⟩
      none).accu.nBCFRecordsReadFromDB = 2 + 1 :=
  have h := get_bucket_unpack_failure demo_ext demo_m1 "unpack" "ds" demo_range ⟨2⟩ none
    [(Status.OK, ⟨3⟩)] [(Status.OK, ⟨4⟩)] Status.OK ⟨9⟩
    (by decide) (by decide) (by decide) (by decide) (by decide) (by decide) (by decide)
  ⟨by decide, by decide, by decide, h.1, h.2.1⟩

/-- C4, the code run on a failing input: in the example the reader of key "corrupt" yields
records 5 and 6 and then reports an error that is not end-of-stream.  `get_bucket` returns
OK, hands the caller the two-record bucket and inserts it into the cache under the key. -/
theorem get_bucket_read_error_returns_ok :
    (demo_ext.Open (demo_db.get 7 "corrupt").2).2.pending =
      [(Status.OK, ⟨5⟩), (Status.OK, ⟨6⟩),
        (Status.IOError "corrupt record" "blob-corrupt", bcf_init)] ∧
    (BCFBucketCache.get_bucket demo_ext demo_m0 "corrupt" "ds" demo_range ⟨0⟩ none).status =
      Status.OK ∧
    (BCFBucketCache.get_bucket demo_ext demo_m0 "corrupt" "ds" demo_range ⟨0⟩ none).ans =
      some 0 ∧
    (BCFBucketCache.get_bucket demo_ext demo_m0 "corrupt" "ds" demo_range ⟨0⟩ none).m.records 0
      = [⟨5⟩, ⟨6⟩] ∧
    (BCFBucketCache.get_bucket demo_ext demo_m0 "corrupt" "ds" demo_range ⟨0⟩
      none).m.body_.cache.lru = [⟨"corrupt", 0, 2⟩] := by
  decide

/-- C5, the code run on a failing input: in the example the store's `get` for key "ioerr"
fails with an I/O error (not `NOT_FOUND`).  `get_bucket` does not return that status: it
goes on to open a reader on the data, returns OK with an empty bucket and inserts it into
the cache under the key. -/
theorem get_bucket_store_failure_ignored :
    (demo_db.get 7 "ioerr").1 = Status.IOError "read failed" "disk" ∧
    (BCFBucketCache.get_bucket demo_ext demo_m0 "ioerr" "ds" demo_range ⟨0⟩ none).status =
      Status.OK ∧
    (BCFBucketCache.get_bucket demo_ext demo_m0 "ioerr" "ds" demo_range ⟨0⟩ none).ans =
      some 0 ∧
    (BCFBucketCache.get_bucket demo_ext demo_m0 "ioerr" "ds" demo_range ⟨0⟩ none).m.records 0
      = [] ∧
    Event.reader_Open "" ∈
      (BCFBucketCache.get_bucket demo_ext demo_m0 "ioerr" "ds" demo_range ⟨0⟩ none).m.log ∧
    (BCFBucketCache.get_bucket demo_ext demo_m0 "ioerr" "ds" demo_range ⟨0⟩
      none).m.body_.cache.lru = [⟨"ioerr", 0, 0⟩] := by
  decide

/-- C6: from a state reachable from `Open`, when the key is not resident, its blob is
present, the reader opens, and every record the reader yields reads and unpacks
successfully up to end-of-stream, `get_bucket` returns OK with a handle to a fresh vector
whose records are exactly the decoded records in decoder order; the counter grows by their
number n; the cache is the result of one `Insert` of the key with the new cell and charge n
(the only insert in the trace, after the load); and when n fits the capacity the key is
resident with charge n and its cell holds the very vector returned to the caller. -/
theorem get_bucket_loads_bucket (ext : Externals) (db : KeyValue.DB) (m : Machine)
    (K dataset : String) (r : range) (accu : StatsRangeQuery) (ans : BktT)
    (hr : Reachable ext db m)
    (hmiss : (m.body_.cache.Lookup K).1 = none)
    (hget : (m.body_.db.get m.body_.coll K).1.ok = true)
    (hopen : (ext.Open (m.body_.db.get m.body_.coll K).2).1.ok = true)
    (hgood : ∀ p ∈ (ext.Open (m.body_.db.get m.body_.coll K).2).2.pending,
      p.1.ok = true ∧ ext.bcf_unpack p.2 = 0) :
    (BCFBucketCache.get_bucket ext m K dataset r accu ans).status = Status.OK ∧
    (BCFBucketCache.get_bucket ext m K dataset r accu ans).ans = some m.vecs.length ∧
    (BCFBucketCache.get_bucket ext m K dataset r accu ans).m.records m.vecs.length =
      (ext.Open (m.body_.db.get m.body_.coll K).2).2.pending.map Prod.snd ∧
    (BCFBucketCache.get_bucket ext m K dataset r accu ans).accu.nBCFRecordsReadFromDB =
      accu.nBCFRecordsReadFromDB +
        (ext.Open (m.body_.db.get m.body_.coll K).2).2.pending.length ∧
    (BCFBucketCache.get_bucket ext m K dataset r accu ans).m.body_.cache =
      (m.body_.cache.Insert K m.cells.length
        (ext.Open (m.body_.db.get m.body_.coll K).2).2.pending.length).1 ∧
    (∃ pre, (BCFBucketCache.get_bucket ext m K dataset r accu ans).m.log =
        Event.cache_Insert K m.cells.length
            (ext.Open (m.body_.db.get m.body_.coll K).2).2.pending.length ::
          Event.assign_ans (some m.vecs.length) ::
          (pre ++ Event.db_get m.body_.coll K :: Event.cache_Lookup K :: m.log) ∧
        ∀ e ∈ pre, LoopEvent m.vecs.length e) ∧
    ((ext.Open (m.body_.db.get m.body_.coll K).2).2.pending.length ≤ m.body_.cache.capacity →
      ((BCFBucketCache.get_bucket ext m K dataset r accu ans).m.body_.cache.Lookup K).1 =
        some ⟨K, m.cells.length,
          (ext.Open (m.body_.db.get m.body_.coll K).2).2.pending.length⟩ ∧
      (BCFBucketCache.get_bucket ext m K dataset r accu ans).m.deref m.cells.length =
        some m.vecs.length) := by
  have hI := Reachable_Inv ext db m hr
  obtain ⟨h1, h2⟩ := load_all_good ext m K dataset r (ok_code _ hget) hopen hgood
  have hb : (load ext m K dataset r).1.bad = false := by rw [h1]; rfl
  have hn : ((load ext m K dataset r).2.records m.vecs.length).length =
      (ext.Open (m.body_.db.get m.body_.coll K).2).2.pending.length := by
    rw [h2, List.length_map]
  have hcache : (BCFBucketCache.get_bucket ext m K dataset r accu ans).m.body_.cache =
      (m.body_.cache.Insert K m.cells.length
        (ext.Open (m.body_.db.get m.body_.coll K).2).2.pending.length).1 := by
    rw [miss_path_eq ext m K dataset r accu ans hmiss, if_neg (by simp [hb]),
      foldl_free_body, hn]
  refine ⟨?_, ?_, ?_, ?_, hcache, ?_, ?_⟩
  · rw [miss_path_eq ext m K dataset r accu ans hmiss, if_neg (by simp [hb])]
  · rw [miss_path_eq ext m K dataset r accu ans hmiss, if_neg (by simp [hb])]
  · rw [miss_path_eq ext m K dataset r accu ans hmiss, if_neg (by simp [hb]),
      foldl_free_records]
    exact h2
  · rw [miss_path_eq ext m K dataset r accu ans hmiss, if_neg (by simp [hb])]
    show _ + ((load ext m K dataset r).2.records m.vecs.length).length = _
    rw [hn]
  · obtain ⟨pre, hp1, hp2⟩ := load_log ext m K dataset r
    refine ⟨pre, ?_, hp2⟩
    rw [miss_path_eq ext m K dataset r accu ans hmiss, if_neg (by simp [hb]),
      foldl_free_log]
    show _ :: _ :: (load ext m K dataset r).2.log = _
    rw [hp1, hn]
  · intro hcap
    have hno := (Lookup_none_iff _ _).1 hmiss
    have hmem : (⟨K, m.cells.length,
        (ext.Open (m.body_.db.get m.body_.coll K).2).2.pending.length⟩ : CacheEntry) ∈
        (BCFBucketCache.get_bucket ext m K dataset r accu ans).m.body_.cache.lru := by
      rw [hcache, Insert_fresh _ _ _ _ hno]
      exact evict_keeps_last _ _ _ hcap
    have hI1 := Inv_get_bucket ext m K dataset r accu ans hI
    exact ⟨Lookup_of_mem _ _ hI1.keys_nodup hmem,
      miss_new_cell ext m K dataset r accu ans hI hmiss hb _ hmem rfl⟩

/-- C6, at a concrete input: the first request for key "good" on the example store, whose
blob decodes to records 1 and 2. -/
theorem get_bucket_loads_bucket_witness :
    Reachable demo_ext demo_db demo_m0 ∧
    (demo_m0.body_.cache.Lookup "good").1 = none ∧
    (demo_m0.body_.db.get demo_m0.body_.coll "good").1.ok = true ∧
    (demo_ext.Open (demo_m0.body_.db.get demo_m0.body_.coll "good").2).2.pending =
      [(Status.OK, ⟨1⟩), (Status.OK, ⟨2⟩)] ∧
    (BCFBucketCache.get_bucket demo_ext demo_m0 "good" "ds" demo_range ⟨0⟩ none).status =
      Status.OK ∧
    (BCFBucketCache.get_bucket demo_ext demo_m0 "good" "ds" demo_range ⟨0⟩ none).ans =
      some demo_m0.vecs.length ∧
    (BCFBucketCache.get_bucket demo_ext demo_m0 "good" "ds" demo_range ⟨0⟩ none).m.records
      demo_m0.vecs.length =
      (demo_ext.Open (demo_m0.body_.db.get demo_m0.body_.coll "good").2).2.pending.map
        Prod.snd :=
  have h := get_bucket_loads_bucket demo_ext demo_db demo_m0 "good" "ds" demo_range ⟨0⟩ none
    (Steps.refl _) (by decide) (by decide) (by decide) (by decide)
  ⟨Steps.refl _, by decide, by decide, by decide, h.1, h.2.1, h.2.2.1⟩

/-- C7: when the cache lookup for the key hits, `get_bucket` returns OK with the bucket
handle stored in the cached cell; its only events are the lookup and the assignment to the
caller's handle (no store call, no decoder call, no insert); the counter, the cells and the
vectors are unchanged; the resident entries are the same up to their recency order and the
capacity is unchanged; and the outcome does not depend on the dataset and range
arguments. -/
theorem get_bucket_hit (ext : Externals) (m : Machine) (key dataset : String) (r : range)
    (accu : StatsRangeQuery) (ans : BktT) (hndl : CacheEntry)
    (hhit : (m.body_.cache.Lookup key).1 = some hndl) :
    (BCFBucketCache.get_bucket ext m key dataset r accu ans).status = Status.OK ∧
    (BCFBucketCache.get_bucket ext m key dataset r accu ans).ans = m.deref hndl.value ∧
    (BCFBucketCache.get_bucket ext m key dataset r accu ans).m.log =
      Event.assign_ans (m.deref hndl.value) :: Event.cache_Lookup key :: m.log ∧
    (BCFBucketCache.get_bucket ext m key dataset r accu ans).accu = accu ∧
    (BCFBucketCache.get_bucket ext m key dataset r accu ans).m.cells = m.cells ∧
    (BCFBucketCache.get_bucket ext m key dataset r accu ans).m.vecs = m.vecs ∧
    (BCFBucketCache.get_bucket ext m key dataset r accu ans).m.body_.cache.lru.Perm
      m.body_.cache.lru ∧
    (BCFBucketCache.get_bucket ext m key dataset r accu ans).m.body_.cache.capacity =
      m.body_.cache.capacity ∧
    (∀ (dataset1 : String) (r1 : range),
      BCFBucketCache.get_bucket ext m key dataset1 r1 accu ans =
        BCFBucketCache.get_bucket ext m key dataset r accu ans) := by
  rw [hit_path_eq ext m key dataset r accu ans hndl hhit]
  refine ⟨rfl, rfl, rfl, rfl, rfl, rfl, (Lookup_perm _ _).1, (Lookup_perm _ _).2, ?_⟩
  intro dataset1 r1
  exact hit_path_eq ext m key dataset1 r1 accu ans hndl hhit

/-- C7, at a concrete input: the example state after one request for "good" hits on a
second request for "good". -/
theorem get_bucket_hit_witness :
    (demo_m1.body_.cache.Lookup "good").1 = some ⟨"good", 0, 2⟩ ∧
    (BCFBucketCache.get_bucket demo_ext demo_m1 "good" "other" demo_range ⟨5⟩ none).status =
      Status.OK ∧
    (BCFBucketCache.get_bucket demo_ext demo_m1 "good" "other" demo_range ⟨5⟩ none).ans =
      demo_m1.deref 0 ∧
    (BCFBucketCache.get_bucket demo_ext demo_m1 "good" "other" demo_range ⟨5⟩ none).accu =
      ⟨5⟩ :=
  have h := get_bucket_hit demo_ext demo_m1 "good" "other" demo_range ⟨5⟩ none
    ⟨"good", 0, 2⟩ (by decide)
  ⟨by decide, h.1, h.2.1, h.2.2.2.1⟩

/-- C8: across any `get_bucket` call, every vector that existed before the call (so every
bucket resident in the cache or handed to a caller earlier) holds the same records after
it.  The events of the call split into an older part, the load, and a newer part, the
publication: every append of the call is in the load and targets the vector created by
this call, and the load contains neither the cache insert nor the assignment to the
caller's handle, which come after it and contain no append. -/
theorem get_bucket_keeps_published_buckets (ext : Externals) (m : Machine)
    (key dataset : String) (r : range) (accu : StatsRangeQuery) (ans : BktT) :
    (∀ v, v < m.vecs.length →
      (BCFBucketCache.get_bucket ext m key dataset r accu ans).m.records v = m.records v) ∧
    (∃ pub ld, (BCFBucketCache.get_bucket ext m key dataset r accu ans).m.log =
        pub ++ ld ++ m.log ∧
      (∀ e ∈ pub, ∀ w vt, e ≠ Event.push_back w vt) ∧
      (∀ e ∈ ld, (∀ k c n, e ≠ Event.cache_Insert k c n) ∧ (∀ p, e ≠ Event.assign_ans p)) ∧
      (∀ w vt, Event.push_back w vt ∈ ld → w = m.vecs.length)) := by
  constructor
  · intro v hv
    have h := get_bucket_vecs_old ext m key dataset r accu ans v hv
    simp only [Machine.records, List.getD_eq_getElem?_getD, h]
  · cases hlk : (m.body_.cache.Lookup key).1 with
    | some hndl =>
      rw [hit_path_eq ext m key dataset r accu ans hndl hlk]
      refine ⟨[Event.assign_ans (m.deref hndl.value)], [Event.cache_Lookup key], rfl, ?_, ?_, ?_⟩
      · intro e he; simp only [List.mem_singleton] at he; subst he; simp
      · intro e he; simp only [List.mem_singleton] at he; subst he; simp
      · intro w vt h; simp at h
    | none =>
      obtain ⟨pre, hp1, hp2⟩ := load_log ext m key dataset r
      have hld : ∀ e ∈ pre ++ [Event.db_get m.body_.coll key, Event.cache_Lookup key],
          (∀ k c n, e ≠ Event.cache_Insert k c n) ∧ (∀ p, e ≠ Event.assign_ans p) := by
        intro e he
        rcases List.mem_append.1 he with h | h
        · exact ⟨(LoopEvent_not_publish _ e (hp2 e h)).1, (LoopEvent_not_publish _ e (hp2 e h)).2.1⟩
        · simp only [List.mem_cons, List.mem_singleton, List.not_mem_nil, or_false] at h
          rcases h with rfl | rfl <;> simp
      have hpush : ∀ w vt, Event.push_back w vt ∈
          pre ++ [Event.db_get m.body_.coll key, Event.cache_Lookup key] →
          w = m.vecs.length := by
        intro w vt he
        rcases List.mem_append.1 he with h | h
        · exact (LoopEvent_not_publish _ _ (hp2 _ h)).2.2 w vt rfl
        · simp at h
      rw [miss_path_eq ext m key dataset r accu ans hlk]
      split_ifs
      · refine ⟨[], pre ++ [Event.db_get m.body_.coll key, Event.cache_Lookup key], ?_, ?_,
          hld, hpush⟩
        · show (load ext m key dataset r).2.log = _
          rw [hp1]; simp
        · intro e he; simp at he
      · refine ⟨[Event.cache_Insert key m.cells.length
            ((load ext m key dataset r).2.records m.vecs.length).length,
          Event.assign_ans (some m.vecs.length)],
          pre ++ [Event.db_get m.body_.coll key, Event.cache_Lookup key], ?_, ?_, hld, hpush⟩
        · rw [foldl_free_log]
          show _ :: _ :: (load ext m key dataset r).2.log = _
          rw [hp1]; simp
        · intro e he
          simp only [List.mem_cons, List.mem_singleton, List.not_mem_nil, or_false] at he
          rcases he with rfl | rfl <;> simp

/-- C9: `Open(db)` resolves the "bcf" collection exactly once (its trace is that one call).
When the resolution fails, `Open` returns the status the resolution returned; when it
succeeds, `Open` returns OK with a service holding the store, the resolved handle, and an
empty cache of capacity 100000 records. -/
theorem Open_resolves_collection_once (db : KeyValue.DB) :
    (BCFBucketCache.Open db).m.log = [Event.db_collection "bcf"] ∧
    ((db.collection "bcf").1.bad = true →
      (BCFBucketCache.Open db).status = (db.collection "bcf").1 ∧
      (BCFBucketCache.Open db).status.bad = true) ∧
    ((db.collection "bcf").1.bad = false →
      (BCFBucketCache.Open db).status = Status.OK ∧
      (BCFBucketCache.Open db).m.body_.db = db ∧
      (BCFBucketCache.Open db).m.body_.coll = (db.collection "bcf").2 ∧
      (BCFBucketCache.Open db).m.body_.cache = ⟨100000, []⟩ ∧
      CAPACITY = 100000) := by
  refine ⟨(Open_body db).2.2.2.2.2, ?_, ?_⟩
  · intro h
    simp [BCFBucketCache.Open, S_returns, h]
  · intro h
    obtain ⟨h1, h2, h3, -⟩ := Open_body db
    refine ⟨?_, h1, h2, h3, rfl⟩
    simp [BCFBucketCache.Open, S_returns, h]

/-- C10, the code run on failing inputs: in the example, a request for the absent key
"missing" returns `NotFound`, a request for "noopen" returns the status of the failed
`BCFReader::Open`, and a request for "unpack" returns the unpack `IOError`.  After each, the
cell allocated by the call is still live and still holds its vector (with the one record
read, for "unpack"), while the cache has no entry and the caller's handle was not assigned:
the allocation is owned by neither. -/
theorem get_bucket_failed_load_leaks_cell :
    demo_m0.cells = [] ∧
    ((BCFBucketCache.get_bucket demo_ext demo_m0 "missing" "ds" demo_range ⟨0⟩ none).status =
        Status.NotFound ∧
      (BCFBucketCache.get_bucket demo_ext demo_m0 "missing" "ds" demo_range ⟨0⟩ none).m.cells =
        [Cell.live (some 0)] ∧
      (BCFBucketCache.get_bucket demo_ext demo_m0 "missing" "ds" demo_range ⟨0⟩
        none).m.body_.cache.lru = [] ∧
      (BCFBucketCache.get_bucket demo_ext demo_m0 "missing" "ds" demo_range ⟨0⟩ none).ans =
        none) ∧
    ((BCFBucketCache.get_bucket demo_ext demo_m0 "noopen" "ds" demo_range ⟨0⟩ none).status.code
        = StatusCode.INVALID ∧
      (BCFBucketCache.get_bucket demo_ext demo_m0 "noopen" "ds" demo_range ⟨0⟩ none).m.cells =
        [Cell.live (some 0)] ∧
      (BCFBucketCache.get_bucket demo_ext demo_m0 "noopen" "ds" demo_range ⟨0⟩
        none).m.body_.cache.lru = [] ∧
      (BCFBucketCache.get_bucket demo_ext demo_m0 "noopen" "ds" demo_range ⟨0⟩ none).ans =
        none) ∧
    ((BCFBucketCache.get_bucket demo_ext demo_m0 "unpack" "ds" demo_range ⟨0⟩ none).status.code
        = StatusCode.IO_ERROR ∧
      (BCFBucketCache.get_bucket demo_ext demo_m0 "unpack" "ds" demo_range ⟨0⟩ none).m.cells =
        [Cell.live (some 0)] ∧
      (BCFBucketCache.get_bucket demo_ext demo_m0 "unpack" "ds" demo_range ⟨0⟩ none).m.vecs =
        [[⟨3⟩]] ∧
      (BCFBucketCache.get_bucket demo_ext demo_m0 "unpack" "ds" demo_range ⟨0⟩
        none).m.body_.cache.lru = [] ∧
      (BCFBucketCache.get_bucket demo_ext demo_m0 "unpack" "ds" demo_range ⟨0⟩ none).ans =
        none) := by
  decide

end GLnexus
